import Mathlib

/-!
# Verification of the battleship-rs two-player session engine

A shallow embedding of the game logic of `src/server.rs`, `src/game_state.rs`,
`src/types.rs` and `src/server_ai.rs` (the board model, the per-message
transition of the two-player session loop, the last-stand sub-protocol, the
play-again negotiation and the power-up hand operations), together with proofs
of the behavioural claims about this code.

Conventions of the embedding:
* A grid is a function `Nat → Nat → CellState`; `g y x` is `grid[y][x]` of the
  Rust code (row index first, matching `Vec<Vec<CellState>>`).  The engine only
  ever addresses indices below `GRID_SIZE = 10`.
* The randomness of `rand::rng()` is passed in explicitly: a list of sampled
  indices for `restore_random_ship`, and one sampled index per missile strike.
* The nested blocking read of the last-stand window is modelled by the list of
  messages the loser's reader yields during the window (`awaitLastStand`).
* `stepMessage` is the transition taken by the server loop for one parsed
  inbound message of one peer; `stepPlayAgain` is the play-again bookkeeping at
  the tail of the loop body.  Outputs are `(receiver, message)` pairs in the
  order the corresponding `writeln!` calls execute.
* `stepMessage` returns `none` only when the supplied list of random samples
  for `restore_random_ship` is too short to decide the restore loop; for every
  sufficiently long sample list it returns `some`.
-/

/-- `CellState` of `src/types.rs`. -/
inductive CellState where
  | Empty
  | Ship
  | Hit
  | Miss
deriving DecidableEq, Repr

/-- `GRID_SIZE` of `src/types.rs`. -/
def GRID_SIZE : Nat := 10

/-- A player grid: `g y x` is cell `grid[y][x]` of the Rust `Vec<Vec<CellState>>`. -/
def Grid : Type := Nat → Nat → CellState

/-- Point update of a grid, the embedding of `grid[y][x] = c`. -/
def updateCell (g : Grid) (x y : Nat) (c : CellState) : Grid :=
  fun j i => if j = y ∧ i = x then c else g j i

/-- `PowerUp` of `src/types.rs`. -/
inductive PowerUp where
  | Shield
  | Radar
  | Repair
  | MissileStrike
deriving DecidableEq, Repr

/-- The wire `Message` enum of `src/types.rs`. -/
inductive Message where
  | PlaceShips (grid : Grid)
  | Attack (x y : Nat)
  | AttackResult (x y : Nat) (hit sunk : Bool)
  | YourTurn
  | OpponentTurn
  | GameOver (won : Bool)
  | WaitingForOpponent
  | GameStart
  | PlayAgainRequest
  | PlayAgainResponse (wants_to_play : Bool)
  | PlayAgainTimeout
  | OpponentQuit
  | NewGameStart
  | LastStandTrigger
  | LastStandResult (success : Bool)
  | CardDrawn (card : PowerUp)
  | CardUsed (card : PowerUp) (target_x target_y : Option Nat)
  | CardEffect (effect_type data : String)
  | GridUpdate (grid : Grid)
  | Quit

/-- `PlayAgainState` of `src/server.rs` (the `Instant` in `WaitingForResponses`
is kept abstract; elapsed-deadline checks take the verdict as an input). -/
inductive PlayAgainState where
  | None
  | WaitingForResponses (p1_response p2_response : Option Bool)
  | Timeout
  | BothAgreed
  | OneDeclined

/-- `PlayerConnection` of `src/server.rs` (without the socket handle). -/
structure PlayerConnection where
  grid : Option Grid
  ready : Bool
  last_stand_used : Bool

/-- The mutable state of the `run_server` game loop: the two player
connections, `current_turn`, the `game_over` flag and `play_again_state`. -/
structure SessionState where
  p1 : PlayerConnection
  p2 : PlayerConnection
  current_turn : Fin 2
  game_over : Bool
  play_again_state : PlayAgainState

/-- Peer `0` is player 1, peer `1` is player 2. -/
def SessionState.peer (st : SessionState) (i : Fin 2) : PlayerConnection :=
  if i = 0 then st.p1 else st.p2

/-- Replace one peer's connection record. -/
def setPeer (st : SessionState) (i : Fin 2) (p : PlayerConnection) : SessionState :=
  if i = 0 then { st with p1 := p } else { st with p2 := p }

/-- The opposite peer index. -/
def otherIdx (i : Fin 2) : Fin 2 :=
  if i = 0 then 1 else 0

/-! ## Board / ship model (`src/game_state.rs`, `src/server.rs`) -/

/-- `can_place_ship` of `src/server.rs` (line 78); identical to
`GameState::can_place_ship` of `src/game_state.rs`. -/
def can_place_ship (g : Grid) (x y length : Nat) (horizontal : Bool) : Bool :=
  if horizontal then
    if x + length > GRID_SIZE then false
    else (List.range length).all fun i => g y (x + i) = CellState.Empty
  else
    if y + length > GRID_SIZE then false
    else (List.range length).all fun i => g (y + i) x = CellState.Empty

/-- `place_ship` of `src/server.rs` (line 107): writes `Ship` over the span. -/
def place_ship (g : Grid) (x y length : Nat) (horizontal : Bool) : Grid :=
  (List.range length).foldl
    (fun g' i =>
      if horizontal then updateCell g' (x + i) y CellState.Ship
      else updateCell g' x (y + i) CellState.Ship)
    g

/-- `GameState::all_ships_sunk`: no cell of the grid is `Ship`. -/
def all_ships_sunk (g : Grid) : Bool :=
  !((List.range GRID_SIZE).any fun y =>
      (List.range GRID_SIZE).any fun x => g y x = CellState.Ship)

/-- The `matches!(c, CellState::Ship | CellState::Hit)` test. -/
def isShipOrHit (c : CellState) : Bool :=
  c = CellState.Ship || c = CellState.Hit

/-- The decreasing while-loop of `GameState::is_ship_sunk_at`: starting at
index `i` and walking towards `0`, stop at the first cell that is not
`Ship|Hit`; report `false` the moment a `Ship` cell is seen. -/
def scanDown (line : Nat → CellState) : Nat → Bool
  | 0 =>
    if isShipOrHit (line 0) then
      if line 0 = CellState.Ship then false else true
    else true
  | i + 1 =>
    if isShipOrHit (line (i + 1)) then
      if line (i + 1) = CellState.Ship then false else scanDown line i
    else true

/-- The increasing while-loop of `GameState::is_ship_sunk_at`, with explicit
fuel (the loop runs at most `GRID_SIZE` iterations since the index is bounded
by `GRID_SIZE`). -/
def scanUpFuel (line : Nat → CellState) : Nat → Nat → Bool
  | 0, _ => true
  | fuel + 1, i =>
    if i < GRID_SIZE then
      if isShipOrHit (line i) then
        if line i = CellState.Ship then false else scanUpFuel line fuel (i + 1)
      else true
    else true

/-- The increasing while-loop of `GameState::is_ship_sunk_at` from index `i`. -/
def scanUp (line : Nat → CellState) (i : Nat) : Bool :=
  scanUpFuel line GRID_SIZE i

/-- Both directional scans of `GameState::is_ship_sunk_at` along one line,
centered at `x`: down from `x`, up from `x + 1`. -/
def lineSunk (line : Nat → CellState) (x : Nat) : Bool :=
  scanDown line x && scanUp line (x + 1)

/-- The orientation test of `GameState::is_ship_sunk_at` (line 128): the ship
is treated as horizontal iff a left or right neighbour is `Ship|Hit`. -/
def horizOriented (g : Grid) (x y : Nat) : Bool :=
  (decide (0 < x) && isShipOrHit (g y (x - 1))) ||
    (decide (x + 1 < GRID_SIZE) && isShipOrHit (g y (x + 1)))

/-- `GameState::is_ship_sunk_at` of `src/game_state.rs` (line 126). -/
def is_ship_sunk_at (g : Grid) (x y : Nat) : Bool :=
  if horizOriented g x y then lineSunk (fun i => g y i) x
  else lineSunk (fun j => g j x) y

/-- The attack resolution of `run_server` (`src/server.rs` lines 233-235 and
565-567): test the cell for `Ship` and overwrite it with `Hit` on a hit;
a miss writes nothing. -/
def applyAttack (g : Grid) (x y : Nat) : Grid :=
  if g y x = CellState.Ship then updateCell g x y CellState.Hit else g

/-! ## Last-stand restore (`restore_random_ship`, `src/server.rs` line 33) -/

/-- `SHIPS` of `src/types.rs`. -/
def SHIPS : List (Nat × String) :=
  [(5, "Carrier"), (4, "Battleship"), (3, "Cruiser"), (3, "Submarine"), (2, "Destroyer")]

/-- The `empty_positions` enumeration of `restore_random_ship`: all `(x, y)`
with `grid[y][x] == Empty`, rows outer, columns inner. -/
def empty_positions (g : Grid) : List (Nat × Nat) :=
  (List.range GRID_SIZE).flatMap fun y =>
    (List.range GRID_SIZE).filterMap fun x =>
      if g y x = CellState.Empty then some (x, y) else none

/-- The sampling loop of `restore_random_ship`.  `idxs` is the stream of
values produced by `rng.random_range(0..empty_positions.len())` (taken modulo
the list length, which is the identity on the values the rng contract allows);
`tried` is the `HashSet` of already-tried positions.  Returns `some (some g')`
when a placement succeeded, `some none` when the loop exhausted all candidate
positions, and `none` when `idxs` ran out before the loop decided. -/
def restoreGo (g : Grid) (L : Nat) (emps : List (Nat × Nat)) :
    List (Nat × Nat) → List Nat → Option (Option Grid)
  | tried, [] => if tried.length < emps.length then none else some none
  | tried, idx :: rest =>
    if tried.length < emps.length then
      let p := emps.getD (idx % emps.length) (0, 0)
      if p ∈ tried then restoreGo g L emps tried rest
      else
        if can_place_ship g p.1 p.2 L true then
          some (some (place_ship g p.1 p.2 L true))
        else if can_place_ship g p.1 p.2 L false then
          some (some (place_ship g p.1 p.2 L false))
        else restoreGo g L emps (p :: tried) rest
    else some none

/-- `restore_random_ship` of `src/server.rs` (line 33): restore a Destroyer
(`SHIPS[4]`, length 2) at a randomly probed empty position, horizontal
orientation tried before vertical. -/
def restore_random_ship (g : Grid) (idxs : List Nat) : Option (Option Grid) :=
  let L := (SHIPS.getD 4 (0, "")).1
  let emps := empty_positions g
  if emps.isEmpty then some none
  else restoreGo g L emps [] idxs

/-! ## The session transition (`run_server`, `src/server.rs`) -/

/-- The 10-second wait loop for a `LastStandResult` (`src/server.rs` lines
284-305): scan the messages the loser's reader yields inside the window and
return the first `LastStandResult` payload; every other message is discarded.
`none` models the window elapsing (or the stream ending) first. -/
def awaitLastStand : List Message → Option Bool
  | [] => none
  | Message.LastStandResult s :: _ => some s
  | _ :: rest => awaitLastStand rest

/-- The explicit inputs standing for the server's environment: the messages
readable from the loser during a last-stand window, the random samples of
`restore_random_ship`, and the two random samples of a missile strike. -/
structure Oracle where
  lastStandWindow : List Message
  restoreIdxs : List Nat
  missile1 : Nat
  missile2 : Nat

/-- The game-over write sequence (`src/server.rs` lines 322-350): `GameOver`
to both players (the attacker `winner` won), then `PlayAgainRequest` to both,
always in player order. -/
def gameOverMsgs (winner : Fin 2) : List (Fin 2 × Message) :=
  [(0, Message.GameOver (decide (winner = 0))),
   (1, Message.GameOver (decide (winner = 1))),
   (0, Message.PlayAgainRequest),
   (1, Message.PlayAgainRequest)]

/-- The turn-switch write sequence (`src/server.rs` lines 352-364): `YourTurn`
to the new attacker, `OpponentTurn` to the other, in player order. -/
def turnMsgs (newTurn : Fin 2) : List (Fin 2 × Message) :=
  [(0, if newTurn = 0 then Message.YourTurn else Message.OpponentTurn),
   (1, if newTurn = 1 then Message.YourTurn else Message.OpponentTurn)]

/-- The `Message::Attack` arm of `run_server` for sender `i` (`src/server.rs`
lines 230-366 for player 1, 562-698 for player 2, which are symmetric copies).
The guard admits the message only when the sender is on turn and both peers
are ready; a guarded-out message falls through to the `_ => {}` arm. -/
def handleAttack (st : SessionState) (i : Fin 2) (x y : Nat) (o : Oracle) :
    Option (SessionState × List (Fin 2 × Message)) :=
  if st.current_turn = i ∧ st.p1.ready = true ∧ st.p2.ready = true then
    match (st.peer (otherIdx i)).grid with
    | none => some (st, [])
    | some g =>
      let g1 := applyAttack g x y
      let hit := decide (g y x = CellState.Ship)
      let sunk := if hit then is_ship_sunk_at g1 x y else false
      let outs0 := [(i, Message.AttackResult x y hit sunk),
                    (otherIdx i, Message.Attack x y)]
      let st1 := setPeer st (otherIdx i) { st.peer (otherIdx i) with grid := some g1 }
      if all_ships_sunk g1 then
        if (st.peer (otherIdx i)).last_stand_used = false then
          let st2 := setPeer st1 (otherIdx i)
            { st1.peer (otherIdx i) with last_stand_used := true }
          let outs1 := outs0 ++ [(otherIdx i, Message.LastStandTrigger)]
          match awaitLastStand o.lastStandWindow with
          | some true =>
            match restore_random_ship g1 o.restoreIdxs with
            | none => none
            | some (some g2) =>
              some (setPeer st2 (otherIdx i)
                      { st2.peer (otherIdx i) with grid := some g2 }, outs1)
            | some none =>
              some ({ st2 with
                        play_again_state := PlayAgainState.WaitingForResponses none none },
                    outs1 ++ gameOverMsgs i)
          | _ =>
            some ({ st2 with
                      play_again_state := PlayAgainState.WaitingForResponses none none },
                  outs1 ++ gameOverMsgs i)
        else
          some ({ st1 with
                    play_again_state := PlayAgainState.WaitingForResponses none none },
                outs0 ++ gameOverMsgs i)
      else
        some ({ st1 with current_turn := otherIdx i }, outs0 ++ turnMsgs (otherIdx i))
  else some (st, [])

/-- The ship positions a Radar card reveals: all `Ship` cells of the opponent
grid in row-major order (`src/server.rs` lines 409-417). -/
def shipPositions (g : Grid) : List (Nat × Nat) :=
  (List.range GRID_SIZE).flatMap fun y =>
    (List.range GRID_SIZE).filterMap fun x =>
      if g y x = CellState.Ship then some (x, y) else none

/-- The missile-strike target list: all `Empty` or `Ship` cells in row-major
order (`src/server.rs` lines 447-456). -/
def missileTargets (g : Grid) : List (Nat × Nat) :=
  (List.range GRID_SIZE).flatMap fun y =>
    (List.range GRID_SIZE).filterMap fun x =>
      if g y x = CellState.Empty ∨ g y x = CellState.Ship then some (x, y) else none

/-- The `format!("{},{}", x, y)` payload of a `CardEffect`. -/
def fmtPos (x y : Nat) : String :=
  toString x ++ "," ++ toString y

/-- One iteration of the missile-strike loop (`src/server.rs` lines 461-482):
remove a random target and hit it (`Ship ↦ Hit`, otherwise `Miss`). -/
def missileOnce (g : Grid) (targets : List (Nat × Nat)) (pick : Nat) :
    Grid × List (Nat × Nat) × Option (Nat × Nat) :=
  if targets.isEmpty then (g, targets, none)
  else
    let idx := pick % targets.length
    let p := targets.getD idx (0, 0)
    let g' := updateCell g p.1 p.2 (if g p.2 p.1 = CellState.Ship then CellState.Hit else CellState.Miss)
    (g', targets.eraseIdx idx, some p)

/-- The `Message::CardUsed` arm of `run_server` (`src/server.rs` lines 388-495
for player 1, 720-825 for player 2). -/
def handleCardUsed (st : SessionState) (i : Fin 2) (card : PowerUp) (o : Oracle) :
    SessionState × List (Fin 2 × Message) :=
  match card with
  | PowerUp.Shield => (st, [(i, Message.CardEffect "shield_activated" "")])
  | PowerUp.Radar =>
    match (st.peer (otherIdx i)).grid with
    | some g =>
      let revealed := shipPositions g
      (st, (revealed.take (min revealed.length 2)).map fun p =>
        (i, Message.CardEffect "radar_reveal" (fmtPos p.1 p.2)))
    | none => (st, [])
  | PowerUp.Repair => (st, [(i, Message.CardEffect "repair" "")])
  | PowerUp.MissileStrike =>
    match (st.peer (otherIdx i)).grid with
    | some g =>
      let r1 := missileOnce g (missileTargets g) o.missile1
      let r2 := missileOnce r1.1 r1.2.1 o.missile2
      let effs :=
        (match r1.2.2 with
         | some p => [(i, Message.CardEffect "missile_strike" (fmtPos p.1 p.2))]
         | none => []) ++
        (match r2.2.2 with
         | some p => [(i, Message.CardEffect "missile_strike" (fmtPos p.1 p.2))]
         | none => [])
      (setPeer st (otherIdx i) { st.peer (otherIdx i) with grid := some r2.1 },
       effs ++ [(i, Message.GridUpdate r2.1)])
    | none => (st, [])

/-- The message dispatch of the `run_server` loop for one parsed message of
peer `i` (`src/server.rs` lines 193-506 and their player-2 copies 525-836).
Unmatched messages hit the `_ => {}` arm and leave everything unchanged. -/
def stepMessage (st : SessionState) (i : Fin 2) (msg : Message) (o : Oracle) :
    Option (SessionState × List (Fin 2 × Message)) :=
  match msg with
  | Message.PlaceShips g =>
    let st' := setPeer st i { st.peer i with grid := some g, ready := true }
    if (st.peer (otherIdx i)).ready = true then
      some (st', [(0, Message.GameStart), (1, Message.GameStart),
                  (0, Message.YourTurn), (1, Message.OpponentTurn)])
    else
      some (st', [(i, Message.WaitingForOpponent)])
  | Message.Attack x y => handleAttack st i x y o
  | Message.PlayAgainResponse w =>
    match st.play_again_state with
    | PlayAgainState.WaitingForResponses r1 r2 =>
      let r1' := if i = 0 then some w else r1
      let r2' := if i = 0 then r2 else some w
      match r1', r2' with
      | some a, some b =>
        some ({ st with play_again_state :=
                  if a && b then PlayAgainState.BothAgreed else PlayAgainState.OneDeclined }, [])
      | _, _ =>
        some ({ st with play_again_state := PlayAgainState.WaitingForResponses r1' r2' }, [])
    | _ => some (st, [])
  | Message.CardUsed card _ _ => some (handleCardUsed st i card o)
  | Message.Quit =>
    some ({ st with game_over := true }, [(otherIdx i, Message.OpponentQuit)])
  | _ => some (st, [])

/-- The play-again bookkeeping at the tail of each loop iteration
(`src/server.rs` lines 847-892).  `timedOut` is the verdict of
`timeout_start.elapsed() > Duration::from_secs(30)`. -/
def stepPlayAgain (st : SessionState) (timedOut : Bool) :
    SessionState × List (Fin 2 × Message) :=
  match st.play_again_state with
  | PlayAgainState.WaitingForResponses _ _ =>
    if timedOut then ({ st with play_again_state := PlayAgainState.Timeout }, [])
    else (st, [])
  | PlayAgainState.BothAgreed =>
    ({ p1 := { grid := none, ready := false, last_stand_used := false },
       p2 := { grid := none, ready := false, last_stand_used := false },
       current_turn := 0,
       game_over := st.game_over,
       play_again_state := PlayAgainState.None },
     [(0, Message.NewGameStart), (1, Message.NewGameStart)])
  | PlayAgainState.OneDeclined => ({ st with game_over := true }, [])
  | PlayAgainState.Timeout => ({ st with game_over := true }, [])
  | PlayAgainState.None => (st, [])

/-! ## Power-up hands (`src/game_state.rs`, `src/server_ai.rs`) -/

/-- The hand-related slice of `GameState` (`current_hand` and
`max_hand_size`); `draw_card` and `use_card` read and write only these. -/
structure CardHand where
  current_hand : List PowerUp
  max_hand_size : Nat

/-- The hand fields as `GameState::new` initialises them. -/
def initialCardHand : CardHand :=
  { current_hand := [], max_hand_size := 5 }

/-- The `card_types` array of `GameState::draw_card`. -/
def card_types : List PowerUp :=
  [PowerUp.Shield, PowerUp.Radar, PowerUp.Repair, PowerUp.MissileStrike]

/-- `GameState::draw_card` (`src/game_state.rs` line 358); `pick` is the rng
sample (taken modulo 4, the identity on the values the rng produces). -/
def draw_card (s : CardHand) (pick : Nat) : Option PowerUp × CardHand :=
  if s.current_hand.length ≥ s.max_hand_size then (none, s)
  else
    let card := card_types.getD (pick % card_types.length) PowerUp.Shield
    (some card, { s with current_hand := s.current_hand ++ [card] })

/-- `GameState::use_card` (`src/game_state.rs` line 377): `Vec::remove` by
index when in range. -/
def use_card (s : CardHand) (card_index : Nat) : Option PowerUp × CardHand :=
  if h : card_index < s.current_hand.length then
    (some (s.current_hand.get ⟨card_index, h⟩),
     { s with current_hand := s.current_hand.eraseIdx card_index })
  else (none, s)

/-- `ai_draw_card` of `src/server_ai.rs` (line 13); `pick` is the rng sample. -/
def ai_draw_card (hand : List PowerUp) (pick : Nat) : List PowerUp :=
  if hand.length < 5 then
    hand ++ [card_types.getD (pick % card_types.length) PowerUp.Shield]
  else hand

/-! ## Basic lemmas about cells and grids -/

theorem updateCell_self (g : Grid) (x y : Nat) (c : CellState) :
    updateCell g x y c y x = c := by
  simp [updateCell]

theorem updateCell_other (g : Grid) (x y : Nat) (c : CellState) (j i : Nat)
    (h : ¬(j = y ∧ i = x)) : updateCell g x y c j i = g j i := by
  simp [updateCell, h]

theorem isShipOrHit_ne_ship_eq_hit (c : CellState) (h1 : isShipOrHit c = true)
    (h2 : c ≠ CellState.Ship) : c = CellState.Hit := by
  cases c <;> simp_all [isShipOrHit]

theorem ship_isShipOrHit (c : CellState) (h : c = CellState.Ship) :
    isShipOrHit c = true := by
  simp [isShipOrHit, h]

theorem hit_isShipOrHit (c : CellState) (h : c = CellState.Hit) :
    isShipOrHit c = true := by
  simp [isShipOrHit, h]

/-! ## C3: placement legality -/

/-- C3: for `x, y < 10`, `can_place_ship` returns `true` iff the whole span of
`length` cells starting at `(x, y)` in the given orientation stays inside the
10×10 grid and every cell of the span is `Empty`. -/
theorem can_place_ship_iff (g : Grid) (x y L : Nat) (horizontal : Bool)
    (hx : x < 10) (hy : y < 10) :
    can_place_ship g x y L horizontal = true ↔
      ((if horizontal then x + L ≤ 10 else y + L ≤ 10) ∧
        ∀ i, i < L →
          (if horizontal then g y (x + i) else g (y + i) x) = CellState.Empty) := by
  cases horizontal with
  | false =>
    by_cases hb : y + L > GRID_SIZE
    · simp only [can_place_ship, if_neg Bool.false_ne_true, if_pos hb]
      simp [GRID_SIZE] at hb
      simp [hb]
    · simp only [can_place_ship, if_neg Bool.false_ne_true, if_neg hb]
      simp [GRID_SIZE] at hb
      simp [List.all_eq_true, List.mem_range, hb]
  | true =>
    by_cases hb : x + L > GRID_SIZE
    · simp only [can_place_ship, if_pos rfl, if_pos hb]
      simp [GRID_SIZE] at hb
      simp [hb]
    · simp only [can_place_ship, if_pos rfl, if_neg hb]
      simp [GRID_SIZE] at hb
      simp [List.all_eq_true, List.mem_range, hb]

theorem can_place_ship_iff_witness :
    (0 : Nat) < 10 ∧ (4 : Nat) < 10 ∧
      (can_place_ship (fun _ _ => CellState.Empty) 0 4 2 true = true ↔
        ((if true then 0 + 2 ≤ 10 else 4 + 2 ≤ 10) ∧
          ∀ i, i < 2 →
            (if true then (fun _ _ => CellState.Empty : Grid) 4 (0 + i)
             else (fun _ _ => CellState.Empty : Grid) (4 + i) 0) = CellState.Empty)) :=
  ⟨by decide, by decide,
    can_place_ship_iff (fun _ _ => CellState.Empty) 0 4 2 true (by decide) (by decide)⟩

/-! ## C10: a miss writes nothing -/

/-- C10: the attack resolution of the session engine leaves the grid
completely unchanged on a miss (no `Miss` marker is written server-side), and
on a hit changes exactly the one attacked cell from `Ship` to `Hit`. -/
theorem applyAttack_frame (g : Grid) (x y : Nat) :
    (g y x ≠ CellState.Ship → applyAttack g x y = g) ∧
    (g y x = CellState.Ship →
      applyAttack g x y y x = CellState.Hit ∧
      ∀ j i, ¬(j = y ∧ i = x) → applyAttack g x y j i = g j i) := by
  constructor
  · intro h
    simp [applyAttack, h]
  · intro h
    constructor
    · simp [applyAttack, h, updateCell_self]
    · intro j i hji
      simp [applyAttack, h, updateCell_other _ _ _ _ _ _ hji]

theorem applyAttack_frame_witness :
    ((fun j i => if j = 4 ∧ (i = 3 ∨ i = 4) then CellState.Ship else CellState.Empty : Grid) 4 3
        = CellState.Ship) ∧
    (applyAttack (fun j i => if j = 4 ∧ (i = 3 ∨ i = 4) then CellState.Ship else CellState.Empty)
        3 4 4 3 = CellState.Hit) :=
  ⟨by decide,
    ((applyAttack_frame
        (fun j i => if j = 4 ∧ (i = 3 ∨ i = 4) then CellState.Ship else CellState.Empty)
        3 4).2 (by decide)).1⟩

/-! ## C4: the sunk scan -/

theorem scanDown_zero_iff (line : Nat → CellState) :
    scanDown line 0 = true ↔ line 0 ≠ CellState.Ship := by
  by_cases h : line 0 = CellState.Ship
  · simp [scanDown, h, isShipOrHit]
  · simp [scanDown, h]

theorem scanDown_succ_iff (line : Nat → CellState) (x : Nat) :
    scanDown line (x + 1) = true ↔
      (line (x + 1) ≠ CellState.Ship ∧
        (isShipOrHit (line (x + 1)) = true → scanDown line x = true)) := by
  by_cases hs : isShipOrHit (line (x + 1)) = true
  · by_cases hS : line (x + 1) = CellState.Ship
    · simp [scanDown, hs, hS]
      decide
    · simp [scanDown, hs, hS]
  · have hS : line (x + 1) ≠ CellState.Ship := fun h => hs (ship_isShipOrHit _ h)
    simp [scanDown, hs, hS]

theorem scanDown_iff (line : Nat → CellState) (x : Nat) :
    scanDown line x = true ↔
      ∀ j, j ≤ x → (∀ k, j ≤ k → k ≤ x → isShipOrHit (line k) = true) →
        line j ≠ CellState.Ship := by
  induction x with
  | zero =>
    rw [scanDown_zero_iff]
    constructor
    · intro h j hj _
      have : j = 0 := Nat.le_zero.mp hj
      subst this
      exact h
    · intro h
      by_cases h0 : line 0 = CellState.Ship
      · exact absurd h0 (h 0 le_rfl (fun k hk1 hk2 => by
          have : k = 0 := Nat.le_zero.mp hk2
          subst this
          exact ship_isShipOrHit _ h0))
      · exact h0
  | succ x ih =>
    rw [scanDown_succ_iff, ih]
    constructor
    · rintro ⟨hS, himp⟩ j hj hrun
      rcases Nat.lt_or_ge j (x + 1) with hlt | hge
      · have hsx : isShipOrHit (line (x + 1)) = true :=
          hrun (x + 1) (by omega) (by omega)
      
        exact himp hsx j (by omega) (fun k hk1 hk2 => hrun k hk1 (by omega))
      · have : j = x + 1 := by omega
        subst this
        exact hS
    · intro hR
      constructor
      · intro hShip
        exact hR (x + 1) le_rfl (fun k hk1 hk2 => by
          have : k = x + 1 := by omega
          subst this
          exact ship_isShipOrHit _ hShip) hShip
      · intro hs j hj hrun
        exact hR j (by omega) (fun k hk1 hk2 => by
          rcases Nat.lt_or_ge k (x + 1) with h1 | h2
          · exact hrun k hk1 (by omega)
          · have : k = x + 1 := by omega
            subst this
            exact hs)

theorem scanUpFuel_iff (line : Nat → CellState) :
    ∀ fuel i, GRID_SIZE ≤ i + fuel →
      (scanUpFuel line fuel i = true ↔
        ∀ j, i ≤ j → j < GRID_SIZE →
          (∀ k, i ≤ k → k ≤ j → isShipOrHit (line k) = true) →
          line j ≠ CellState.Ship) := by
  intro fuel
  induction fuel with
  | zero =>
    intro i hif
    simp only [scanUpFuel]
    constructor
    · intro _ j hij hj _
      exfalso
      omega
    · intro _
      trivial
  | succ fuel ih =>
    intro i hif
    by_cases hi : i < GRID_SIZE
    · by_cases hs : isShipOrHit (line i) = true
      · by_cases hS : line i = CellState.Ship
        · simp only [scanUpFuel, if_pos hi, if_pos hs, if_pos hS]
          constructor
          · intro h
            exact absurd h (by simp)
          · intro hR
            exfalso
            exact hR i le_rfl hi (fun k hk1 hk2 => by
              have : k = i := by omega
              subst this
              exact hs) hS
        · simp only [scanUpFuel, if_pos hi, if_pos hs, if_neg hS]
          rw [ih (i + 1) (by omega)]
          constructor
          · intro hR j hij hj hrun
            rcases Nat.eq_or_lt_of_le hij with h1 | h2
            · subst h1
              exact hS
            · exact hR j (by omega) hj (fun k hk1 hk2 => hrun k (by omega) hk2)
          · intro hR j hij hj hrun
            exact hR j (by omega) hj (fun k hk1 hk2 => by
              rcases Nat.eq_or_lt_of_le hk1 with h1 | h2
              · subst h1
                exact hs
              · exact hrun k (by omega) hk2)
      · simp only [scanUpFuel, if_pos hi, if_neg hs]
        constructor
        · intro _ j hij hj hrun
          exact absurd (hrun i le_rfl hij) hs
        · intro _
          trivial
    · simp only [scanUpFuel, if_neg hi]
      constructor
      · intro _ j hij hj _
        exfalso
        omega
      · intro _
        trivial

theorem scanUp_iff (line : Nat → CellState) (i : Nat) :
    scanUp line i = true ↔
      ∀ j, i ≤ j → j < GRID_SIZE →
        (∀ k, i ≤ k → k ≤ j → isShipOrHit (line k) = true) →
        line j ≠ CellState.Ship :=
  scanUpFuel_iff line GRID_SIZE i (by omega)

/-- Membership in the contiguous `Ship|Hit` run through position `x` of a
line: every cell between `x` and `j` (inclusive) is `Ship` or `Hit`.  This is
the claim's notion of "the contiguous Ship-or-Hit run through the hit cell". -/
def inLineRun (line : Nat → CellState) (x j : Nat) : Prop :=
  ∀ k, min x j ≤ k → k ≤ max x j → isShipOrHit (line k) = true

theorem lineSunk_iff (line : Nat → CellState) (x : Nat) (hx : x < GRID_SIZE)
    (hHit : line x = CellState.Hit) :
    lineSunk line x = true ↔
      ∀ j, j < GRID_SIZE → inLineRun line x j → line j = CellState.Hit := by
  rw [lineSunk, Bool.and_eq_true, scanDown_iff, scanUp_iff]
  constructor
  · rintro ⟨hd, hu⟩ j hj hrun
    rcases Nat.le_total j x with hle | hge
    · have hns : line j ≠ CellState.Ship :=
        hd j hle (fun k hk1 hk2 => hrun k (by omega) (by omega))
      have hsh : isShipOrHit (line j) = true := hrun j (by omega) (by omega)
      exact isShipOrHit_ne_ship_eq_hit _ hsh hns
    · rcases Nat.eq_or_lt_of_le hge with h1 | h2
      · subst h1
        exact hHit
      · have hns : line j ≠ CellState.Ship :=
          hu j (by omega) hj (fun k hk1 hk2 => hrun k (by omega) (by omega))
        have hsh : isShipOrHit (line j) = true := hrun j (by omega) (by omega)
        exact isShipOrHit_ne_ship_eq_hit _ hsh hns
  · intro hA
    constructor
    · intro j hj hrun
      have : line j = CellState.Hit := hA j (by omega) (fun k hk1 hk2 => by
        have h1 : j ≤ k := by omega
        have h2 : k ≤ x := by omega
        exact hrun k h1 h2)
      simp [this]
    · intro j hj1 hj2 hrun
      have : line j = CellState.Hit := hA j hj2 (fun k hk1 hk2 => by
        rcases Nat.eq_or_lt_of_le (show x ≤ k by omega) with h1 | h2
        · subst h1
          exact hit_isShipOrHit _ hHit
        · exact hrun k (by omega) (by omega))
      simp [this]

/-- C4: for a `Hit` cell `(x, y)`, `is_ship_sunk_at` classifies the ship as
horizontal iff a left or right neighbour is `Ship|Hit` (otherwise vertical)
and returns `true` iff every cell of the contiguous `Ship|Hit` run through
`(x, y)` along that axis is `Hit` (for any run length, in particular ship
lengths 2–5); moreover a single isolated `Hit` cell always yields `true`. -/
theorem is_ship_sunk_at_iff (g : Grid) (x y : Nat) (hx : x < GRID_SIZE)
    (hy : y < GRID_SIZE) (hHit : g y x = CellState.Hit) :
    (is_ship_sunk_at g x y = true ↔
      (if horizOriented g x y = true then
        ∀ j, j < GRID_SIZE → inLineRun (fun i => g y i) x j → g y j = CellState.Hit
      else
        ∀ j, j < GRID_SIZE → inLineRun (fun j' => g j' x) y j → g j x = CellState.Hit)) ∧
    (((x = 0 ∨ isShipOrHit (g y (x - 1)) = false) ∧
      (GRID_SIZE ≤ x + 1 ∨ isShipOrHit (g y (x + 1)) = false) ∧
      (y = 0 ∨ isShipOrHit (g (y - 1) x) = false) ∧
      (GRID_SIZE ≤ y + 1 ∨ isShipOrHit (g (y + 1) x) = false)) →
      is_ship_sunk_at g x y = true) := by
  constructor
  · by_cases hor : horizOriented g x y = true
    · rw [is_ship_sunk_at, if_pos hor, if_pos hor]
      exact lineSunk_iff (fun i => g y i) x hx hHit
    · rw [is_ship_sunk_at, if_neg hor, if_neg hor]
      exact lineSunk_iff (fun j' => g j' x) y hy hHit
  · rintro ⟨h1, h2, h3, h4⟩
    have hor : horizOriented g x y = false := by
      have e1 : (decide (0 < x) && isShipOrHit (g y (x - 1))) = false := by
        rcases h1 with h1 | h1
        · subst h1
          simp
        · simp [h1]
      have e2 : (decide (x + 1 < GRID_SIZE) && isShipOrHit (g y (x + 1))) = false := by
        rcases h2 with h2 | h2
        · have h2' : 10 ≤ x + 1 := h2
          have : decide (x + 1 < GRID_SIZE) = false := by
            simp only [decide_eq_false_iff_not, GRID_SIZE]
            omega
          simp [this]
        · simp [h2]
      rw [horizOriented, e1, e2]
      rfl
    rw [is_ship_sunk_at, if_neg (by simp [hor])]
    rw [lineSunk_iff (fun j' => g j' x) y hy hHit]
    intro j hj hrun
    rcases Nat.lt_trichotomy j y with hlt | heq | hgt
    · have hup : isShipOrHit (g (y - 1) x) = true := hrun (y - 1) (by omega) (by omega)
      rcases h3 with h3 | h3
      · omega
      · rw [h3] at hup
        exact absurd hup (by simp)
    · subst heq
      exact hHit
    · have hdn : isShipOrHit (g (y + 1) x) = true := hrun (y + 1) (by omega) (by omega)
      rcases h4 with h4 | h4
      · exfalso
        have h4' : 10 ≤ y + 1 := h4
        have hj' : j < 10 := hj
        omega
      · rw [h4] at hdn
        exact absurd hdn (by simp)

theorem is_ship_sunk_at_iff_witness :
    ((fun j i => if j = 4 ∧ (i = 3 ∨ i = 4) then CellState.Hit else CellState.Empty : Grid) 4 3
        = CellState.Hit) ∧
    ((is_ship_sunk_at
        (fun j i => if j = 4 ∧ (i = 3 ∨ i = 4) then CellState.Hit else CellState.Empty) 3 4
          = true ↔
      (if horizOriented
            (fun j i => if j = 4 ∧ (i = 3 ∨ i = 4) then CellState.Hit else CellState.Empty)
            3 4 = true then
        ∀ j, j < GRID_SIZE →
          inLineRun
            (fun i =>
              (fun j i => if j = 4 ∧ (i = 3 ∨ i = 4) then CellState.Hit else CellState.Empty : Grid)
                4 i) 3 j →
          (fun j i => if j = 4 ∧ (i = 3 ∨ i = 4) then CellState.Hit else CellState.Empty : Grid)
            4 j = CellState.Hit
      else
        ∀ j, j < GRID_SIZE →
          inLineRun
            (fun j' =>
              (fun j i => if j = 4 ∧ (i = 3 ∨ i = 4) then CellState.Hit else CellState.Empty : Grid)
                j' 3) 4 j →
          (fun j i => if j = 4 ∧ (i = 3 ∨ i = 4) then CellState.Hit else CellState.Empty : Grid)
            j 3 = CellState.Hit))) :=
  ⟨by decide,
    (is_ship_sunk_at_iff
      (fun j i => if j = 4 ∧ (i = 3 ∨ i = 4) then CellState.Hit else CellState.Empty)
      3 4 (by decide) (by decide) (by decide)).1⟩

/-! ## Placement and restore lemmas -/

theorem place_ship_succ (g : Grid) (x y L : Nat) (hor : Bool) :
    place_ship g x y (L + 1) hor =
      (if hor then updateCell (place_ship g x y L hor) (x + L) y CellState.Ship
       else updateCell (place_ship g x y L hor) x (y + L) CellState.Ship) := by
  rw [place_ship, List.range_succ, List.foldl_append]
  rfl

theorem place_ship_eval (g : Grid) (x y : Nat) (hor : Bool) :
    ∀ L j i, place_ship g x y L hor j i =
      if (hor = true ∧ j = y ∧ x ≤ i ∧ i < x + L) ∨
         (hor = false ∧ i = x ∧ y ≤ j ∧ j < y + L) then CellState.Ship
      else g j i := by
  intro L
  induction L with
  | zero =>
    intro j i
    rw [if_neg]
    · rfl
    · rintro (⟨_, _, h1, h2⟩ | ⟨_, _, h1, h2⟩) <;> omega
  | succ L ih =>
    intro j i
    rw [place_ship_succ]
    cases hor with
    | true =>
      show updateCell (place_ship g x y L true) (x + L) y CellState.Ship j i = _
      rw [updateCell]
      by_cases hji : j = y ∧ i = x + L
      · rw [if_pos hji, if_pos (Or.inl ⟨rfl, hji.1, by omega, by omega⟩)]
      · rw [if_neg hji, ih]
        by_cases hc : (true = true ∧ j = y ∧ x ≤ i ∧ i < x + L) ∨
            (true = false ∧ i = x ∧ y ≤ j ∧ j < y + L)
        · rcases hc with ⟨_, h1, h2, h3⟩ | ⟨h0, _⟩
          · rw [if_pos (Or.inl ⟨rfl, h1, h2, h3⟩),
              if_pos (Or.inl ⟨rfl, h1, h2, by omega⟩)]
          · exact absurd h0 (by decide)
        · rw [if_neg hc, if_neg]
          rintro (⟨_, h1, h2, h3⟩ | ⟨h0, _⟩)
          · rcases Nat.lt_or_ge i (x + L) with h4 | h4
            · exact hc (Or.inl ⟨rfl, h1, h2, h4⟩)
            · exact hji ⟨h1, by omega⟩
          · exact absurd h0 (by decide)
    | false =>
      show updateCell (place_ship g x y L false) x (y + L) CellState.Ship j i = _
      rw [updateCell]
      by_cases hji : j = y + L ∧ i = x
      · rw [if_pos hji, if_pos (Or.inr ⟨rfl, hji.2, by omega, by omega⟩)]
      · rw [if_neg hji, ih]
        by_cases hc : (false = true ∧ j = y ∧ x ≤ i ∧ i < x + L) ∨
            (false = false ∧ i = x ∧ y ≤ j ∧ j < y + L)
        · rcases hc with ⟨h0, _⟩ | ⟨_, h1, h2, h3⟩
          · exact absurd h0 (by decide)
          · rw [if_pos (Or.inr ⟨rfl, h1, h2, h3⟩),
              if_pos (Or.inr ⟨rfl, h1, h2, by omega⟩)]
        · rw [if_neg hc, if_neg]
          rintro (⟨h0, _⟩ | ⟨_, h1, h2, h3⟩)
          · exact absurd h0 (by decide)
          · rcases Nat.lt_or_ge j (y + L) with h4 | h4
            · exact hc (Or.inr ⟨rfl, h1, h2, h4⟩)
            · exact hji ⟨by omega, h1⟩

theorem can_place_ship_cells (g : Grid) (x y L : Nat) (hor : Bool)
    (h : can_place_ship g x y L hor = true) (k : Nat) (hk : k < L) :
    (if hor then g y (x + k) else g (y + k) x) = CellState.Empty := by
  cases hor with
  | true =>
    rw [can_place_ship] at h
    by_cases hb : x + L > GRID_SIZE
    · rw [if_pos rfl, if_pos hb] at h
      exact absurd h (by decide)
    · rw [if_pos rfl, if_neg hb] at h
      have := List.all_eq_true.mp h k (List.mem_range.mpr hk)
      simpa using this
  | false =>
    rw [can_place_ship] at h
    by_cases hb : y + L > GRID_SIZE
    · rw [if_neg (by decide : ¬ (false = true)), if_pos hb] at h
      exact absurd h (by decide)
    · rw [if_neg (by decide : ¬ (false = true)), if_neg hb] at h
      have := List.all_eq_true.mp h k (List.mem_range.mpr hk)
      simpa using this

theorem place_ship_preserves (g : Grid) (x y L : Nat) (hor : Bool)
    (hcan : can_place_ship g x y L hor = true) (j i : Nat)
    (h : g j i ≠ CellState.Empty) : place_ship g x y L hor j i = g j i := by
  rw [place_ship_eval, if_neg]
  rintro (⟨hh, h1, h2, h3⟩ | ⟨hh, h1, h2, h3⟩)
  · subst hh
    have hc := can_place_ship_cells g x y L true hcan (i - x) (by omega)
    rw [if_pos rfl] at hc
    have hxi : x + (i - x) = i := by omega
    rw [hxi] at hc
    subst h1
    exact h hc
  · subst hh
    have hc := can_place_ship_cells g x y L false hcan (j - y) (by omega)
    rw [if_neg (by decide : ¬ (false = true))] at hc
    have hyj : y + (j - y) = j := by omega
    rw [hyj] at hc
    subst h1
    exact h hc

theorem mem_empty_positions (g : Grid) (p : Nat × Nat) :
    p ∈ empty_positions g ↔
      p.1 < GRID_SIZE ∧ p.2 < GRID_SIZE ∧ g p.2 p.1 = CellState.Empty := by
  cases p with
  | mk x y =>
    simp only [empty_positions, List.mem_flatMap, List.mem_filterMap, List.mem_range]
    constructor
    · rintro ⟨y', hy', x', hx', h⟩
      by_cases he : g y' x' = CellState.Empty
      · rw [if_pos he] at h
        have h1 : x' = x ∧ y' = y := by
          have := Option.some.inj h
          exact ⟨congrArg Prod.fst this, congrArg Prod.snd this⟩
        obtain ⟨hx1, hy1⟩ := h1
        subst hx1
        subst hy1
        exact ⟨hx', hy', he⟩
      · rw [if_neg he] at h
        exact absurd h (by simp)
    · rintro ⟨hx, hy, he⟩
      exact ⟨y, hy, x, hx, by rw [if_pos he]⟩

theorem getD_mem_of_lt {α : Type} (l : List α) (n : Nat) (d : α) (h : n < l.length) :
    l.getD n d ∈ l := by
  rw [List.getD_eq_getElem l d h]
  exact List.getElem_mem h

theorem restoreGo_some_sound (g : Grid) (L : Nat) (emps : List (Nat × Nat)) :
    ∀ idxs tried g', restoreGo g L emps tried idxs = some (some g') →
      ∃ p, p ∈ emps ∧
        ((can_place_ship g p.1 p.2 L true = true ∧ g' = place_ship g p.1 p.2 L true) ∨
         (can_place_ship g p.1 p.2 L true = false ∧
          can_place_ship g p.1 p.2 L false = true ∧
          g' = place_ship g p.1 p.2 L false)) := by
  intro idxs
  induction idxs with
  | nil =>
    intro tried g' h
    rw [restoreGo] at h
    split at h <;> simp at h
  | cons idx rest ih =>
    intro tried g' h
    rw [restoreGo] at h
    by_cases hlen : tried.length < emps.length
    · rw [if_pos hlen] at h
      by_cases hmem : emps.getD (idx % emps.length) (0, 0) ∈ tried
      · rw [if_pos hmem] at h
        exact ih tried g' h
      · rw [if_neg hmem] at h
        have hpm : emps.getD (idx % emps.length) (0, 0) ∈ emps :=
          getD_mem_of_lt emps _ (0, 0) (Nat.mod_lt _ (by omega))
        by_cases hch : can_place_ship g (emps.getD (idx % emps.length) (0, 0)).1
            (emps.getD (idx % emps.length) (0, 0)).2 L true = true
        · rw [if_pos hch] at h
          have hg' := (Option.some.inj (Option.some.inj h)).symm
          exact ⟨emps.getD (idx % emps.length) (0, 0), hpm, Or.inl ⟨hch, hg'⟩⟩
        · rw [if_neg hch] at h
          by_cases hcv : can_place_ship g (emps.getD (idx % emps.length) (0, 0)).1
              (emps.getD (idx % emps.length) (0, 0)).2 L false = true
          · rw [if_pos hcv] at h
            have hg' := (Option.some.inj (Option.some.inj h)).symm
            exact ⟨emps.getD (idx % emps.length) (0, 0), hpm,
              Or.inr ⟨Bool.not_eq_true _ ▸ Bool.eq_false_iff.mpr hch, hcv, hg'⟩⟩
          · rw [if_neg hcv] at h
            exact ih _ g' h
    · rw [if_neg hlen] at h
      exact absurd h (by simp)

theorem tried_covers {P : Nat × Nat → Prop} (emps tried : List (Nat × Nat))
    (hnd : tried.Nodup) (hsub : ∀ p ∈ tried, p ∈ emps)
    (hlen : ¬ tried.length < emps.length) (hP : ∀ p ∈ tried, P p) :
    ∀ p ∈ emps, P p := by
  intro p hp
  by_contra hnp
  have hpnt : p ∉ tried := fun h => hnp (hP p h)
  have hsub' : tried ⊆ emps.erase p := by
    intro q hq
    have hne : q ≠ p := fun he => hpnt (he ▸ hq)
    exact (List.mem_erase_of_ne hne).mpr (hsub q hq)
  have hle : tried.length ≤ (emps.erase p).length :=
    (List.subperm_of_subset hnd hsub').length_le
  have herase : (emps.erase p).length = emps.length - 1 :=
    List.length_erase_of_mem hp
  have hpos : 0 < emps.length := List.length_pos_of_mem hp
  omega

theorem restoreGo_exhausted (g : Grid) (L : Nat) (emps : List (Nat × Nat)) :
    ∀ idxs tried, restoreGo g L emps tried idxs = some none →
      tried.Nodup →
      (∀ p ∈ tried, p ∈ emps ∧ can_place_ship g p.1 p.2 L true = false ∧
        can_place_ship g p.1 p.2 L false = false) →
      ∀ p ∈ emps, can_place_ship g p.1 p.2 L true = false ∧
        can_place_ship g p.1 p.2 L false = false := by
  intro idxs
  induction idxs with
  | nil =>
    intro tried h hnd hinv
    rw [restoreGo] at h
    by_cases hlen : tried.length < emps.length
    · rw [if_pos hlen] at h
      exact absurd h (by simp)
    · exact tried_covers emps tried hnd (fun p hp => (hinv p hp).1) hlen
        (fun p hp => (hinv p hp).2)
  | cons idx rest ih =>
    intro tried h hnd hinv
    rw [restoreGo] at h
    by_cases hlen : tried.length < emps.length
    · rw [if_pos hlen] at h
      by_cases hmem : emps.getD (idx % emps.length) (0, 0) ∈ tried
      · rw [if_pos hmem] at h
        exact ih tried h hnd hinv
      · rw [if_neg hmem] at h
        have hpm : emps.getD (idx % emps.length) (0, 0) ∈ emps :=
          getD_mem_of_lt emps _ (0, 0) (Nat.mod_lt _ (by omega))
        by_cases hch : can_place_ship g (emps.getD (idx % emps.length) (0, 0)).1
            (emps.getD (idx % emps.length) (0, 0)).2 L true = true
        · rw [if_pos hch] at h
          exact absurd h (by simp)
        · rw [if_neg hch] at h
          by_cases hcv : can_place_ship g (emps.getD (idx % emps.length) (0, 0)).1
              (emps.getD (idx % emps.length) (0, 0)).2 L false = true
          · rw [if_pos hcv] at h
            exact absurd h (by simp)
          · rw [if_neg hcv] at h
            refine ih _ h (List.nodup_cons.mpr ⟨hmem, hnd⟩) ?_
            intro p hp
            rcases List.mem_cons.mp hp with h1 | h1
            · subst h1
              exact ⟨hpm, Bool.eq_false_iff.mpr hch, Bool.eq_false_iff.mpr hcv⟩
            · exact hinv p h1
    · rw [if_neg hlen] at h
      exact tried_covers emps tried hnd (fun p hp => (hinv p hp).1) hlen
        (fun p hp => (hinv p hp).2)

theorem restore_random_ship_none_no_placement (g : Grid) (idxs : List Nat)
    (h : restore_random_ship g idxs = some none) :
    ∀ p ∈ empty_positions g, can_place_ship g p.1 p.2 2 true = false ∧
      can_place_ship g p.1 p.2 2 false = false := by
  rw [restore_random_ship] at h
  by_cases he : (empty_positions g).isEmpty = true
  · intro p hp
    rw [List.isEmpty_iff] at he
    rw [he] at hp
    exact absurd hp (by simp)
  · rw [if_neg he] at h
    exact restoreGo_exhausted g 2 (empty_positions g) idxs [] h List.nodup_nil
      (fun p hp => absurd hp (by simp))

theorem restore_random_ship_some_sound (g : Grid) (idxs : List Nat) (g' : Grid)
    (h : restore_random_ship g idxs = some (some g')) :
    ∃ p, p ∈ empty_positions g ∧
      ((can_place_ship g p.1 p.2 2 true = true ∧ g' = place_ship g p.1 p.2 2 true) ∨
       (can_place_ship g p.1 p.2 2 true = false ∧
        can_place_ship g p.1 p.2 2 false = true ∧
        g' = place_ship g p.1 p.2 2 false)) := by
  rw [restore_random_ship] at h
  by_cases he : (empty_positions g).isEmpty = true
  · rw [if_pos he] at h
    exact absurd h (by simp)
  · rw [if_neg he] at h
    exact restoreGo_some_sound g 2 (empty_positions g) idxs [] g' h

theorem restore_random_ship_empty (g : Grid)
    (h : empty_positions g = []) (idxs : List Nat) :
    restore_random_ship g idxs = some none := by
  rw [restore_random_ship, if_pos]
  rw [List.isEmpty_iff]
  exact h

theorem restore_random_ship_preserves (g : Grid) (idxs : List Nat) (g' : Grid)
    (h : restore_random_ship g idxs = some (some g')) (j i : Nat)
    (hne : g j i ≠ CellState.Empty) : g' j i = g j i := by
  obtain ⟨p, _, hcase⟩ := restore_random_ship_some_sound g idxs g' h
  rcases hcase with ⟨hc, hg'⟩ | ⟨_, hc, hg'⟩ <;> rw [hg']
  · exact place_ship_preserves g p.1 p.2 2 true hc j i hne
  · exact place_ship_preserves g p.1 p.2 2 false hc j i hne

/-! ## Session-state lemmas -/

theorem otherIdx_ne : ∀ i : Fin 2, otherIdx i ≠ i := by decide

theorem peer_setPeer_same (st : SessionState) (i : Fin 2) (p : PlayerConnection) :
    (setPeer st i p).peer i = p := by
  fin_cases i <;> simp [setPeer, SessionState.peer]

theorem peer_setPeer_other (st : SessionState) (i j : Fin 2) (p : PlayerConnection)
    (h : j ≠ i) : (setPeer st i p).peer j = st.peer j := by
  fin_cases i <;> fin_cases j <;> simp_all [setPeer, SessionState.peer]

theorem setPeer_current_turn (st : SessionState) (i : Fin 2) (p : PlayerConnection) :
    (setPeer st i p).current_turn = st.current_turn := by
  fin_cases i <;> simp [setPeer]

theorem setPeer_game_over (st : SessionState) (i : Fin 2) (p : PlayerConnection) :
    (setPeer st i p).game_over = st.game_over := by
  fin_cases i <;> simp [setPeer]

theorem setPeer_play_again (st : SessionState) (i : Fin 2) (p : PlayerConnection) :
    (setPeer st i p).play_again_state = st.play_again_state := by
  fin_cases i <;> simp [setPeer]

/-! ## Branch equations for the attack transition -/

/-- The session state after the attack resolution wrote the grid back. -/
def stAfterAttack (st : SessionState) (i : Fin 2) (g1 : Grid) : SessionState :=
  setPeer st (otherIdx i) { st.peer (otherIdx i) with grid := some g1 }

/-- The session state after the last-stand flag of the defender is raised. -/
def stAfterFlag (st : SessionState) (i : Fin 2) (g1 : Grid) : SessionState :=
  setPeer (stAfterAttack st i g1) (otherIdx i)
    { (stAfterAttack st i g1).peer (otherIdx i) with last_stand_used := true }

/-- The two messages every accepted attack writes first: the result to the
attacker and the mirrored attack to the defender. -/
def attackOuts (i : Fin 2) (x y : Nat) (g : Grid) : List (Fin 2 × Message) :=
  [(i, Message.AttackResult x y (decide (g y x = CellState.Ship))
      (if decide (g y x = CellState.Ship) = true then
        is_ship_sunk_at (applyAttack g x y) x y else false)),
   (otherIdx i, Message.Attack x y)]

theorem handleAttack_eq_rejected (st : SessionState) (i : Fin 2) (x y : Nat) (o : Oracle)
    (h : ¬(st.current_turn = i ∧ st.p1.ready = true ∧ st.p2.ready = true)) :
    handleAttack st i x y o = some (st, []) := by
  rw [handleAttack, if_neg h]

theorem handleAttack_eq_noGrid (st : SessionState) (i : Fin 2) (x y : Nat) (o : Oracle)
    (hg : (st.peer (otherIdx i)).grid = none) :
    handleAttack st i x y o = some (st, []) := by
  rw [handleAttack]
  split
  · rw [hg]
  · rfl

theorem handleAttack_eq_notSunk (st : SessionState) (i : Fin 2) (x y : Nat) (g : Grid)
    (o : Oracle) (hturn : st.current_turn = i) (hr1 : st.p1.ready = true)
    (hr2 : st.p2.ready = true) (hg : (st.peer (otherIdx i)).grid = some g)
    (hns : all_ships_sunk (applyAttack g x y) = false) :
    handleAttack st i x y o =
      some ({ stAfterAttack st i (applyAttack g x y) with current_turn := otherIdx i },
            attackOuts i x y g ++ turnMsgs (otherIdx i)) := by
  rw [handleAttack, if_pos ⟨hturn, hr1, hr2⟩, hg]
  simp [stAfterAttack, attackOuts, hns]

theorem handleAttack_eq_flagUsed (st : SessionState) (i : Fin 2) (x y : Nat) (g : Grid)
    (o : Oracle) (hturn : st.current_turn = i) (hr1 : st.p1.ready = true)
    (hr2 : st.p2.ready = true) (hg : (st.peer (otherIdx i)).grid = some g)
    (hs : all_ships_sunk (applyAttack g x y) = true)
    (hf : (st.peer (otherIdx i)).last_stand_used = true) :
    handleAttack st i x y o =
      some ({ stAfterAttack st i (applyAttack g x y) with
                play_again_state := PlayAgainState.WaitingForResponses none none },
            attackOuts i x y g ++ gameOverMsgs i) := by
  rw [handleAttack, if_pos ⟨hturn, hr1, hr2⟩, hg]
  simp [stAfterAttack, attackOuts, hs, hf]

theorem handleAttack_eq_noSuccess (st : SessionState) (i : Fin 2) (x y : Nat) (g : Grid)
    (o : Oracle) (hturn : st.current_turn = i) (hr1 : st.p1.ready = true)
    (hr2 : st.p2.ready = true) (hg : (st.peer (otherIdx i)).grid = some g)
    (hs : all_ships_sunk (applyAttack g x y) = true)
    (hf : (st.peer (otherIdx i)).last_stand_used = false)
    (haw : awaitLastStand o.lastStandWindow = none ∨
      awaitLastStand o.lastStandWindow = some false) :
    handleAttack st i x y o =
      some ({ stAfterFlag st i (applyAttack g x y) with
                play_again_state := PlayAgainState.WaitingForResponses none none },
            attackOuts i x y g ++ [(otherIdx i, Message.LastStandTrigger)] ++ gameOverMsgs i) := by
  rw [handleAttack, if_pos ⟨hturn, hr1, hr2⟩, hg]
  rcases haw with haw | haw <;>
    simp [stAfterAttack, stAfterFlag, attackOuts, hs, hf, haw]

theorem handleAttack_eq_restored (st : SessionState) (i : Fin 2) (x y : Nat) (g g2 : Grid)
    (o : Oracle) (hturn : st.current_turn = i) (hr1 : st.p1.ready = true)
    (hr2 : st.p2.ready = true) (hg : (st.peer (otherIdx i)).grid = some g)
    (hs : all_ships_sunk (applyAttack g x y) = true)
    (hf : (st.peer (otherIdx i)).last_stand_used = false)
    (haw : awaitLastStand o.lastStandWindow = some true)
    (hres : restore_random_ship (applyAttack g x y) o.restoreIdxs = some (some g2)) :
    handleAttack st i x y o =
      some (setPeer (stAfterFlag st i (applyAttack g x y)) (otherIdx i)
              { (stAfterFlag st i (applyAttack g x y)).peer (otherIdx i) with grid := some g2 },
            attackOuts i x y g ++ [(otherIdx i, Message.LastStandTrigger)]) := by
  rw [handleAttack, if_pos ⟨hturn, hr1, hr2⟩, hg]
  simp [stAfterAttack, stAfterFlag, attackOuts, hs, hf, haw, hres]

theorem handleAttack_eq_restoreFailed (st : SessionState) (i : Fin 2) (x y : Nat) (g : Grid)
    (o : Oracle) (hturn : st.current_turn = i) (hr1 : st.p1.ready = true)
    (hr2 : st.p2.ready = true) (hg : (st.peer (otherIdx i)).grid = some g)
    (hs : all_ships_sunk (applyAttack g x y) = true)
    (hf : (st.peer (otherIdx i)).last_stand_used = false)
    (haw : awaitLastStand o.lastStandWindow = some true)
    (hres : restore_random_ship (applyAttack g x y) o.restoreIdxs = some none) :
    handleAttack st i x y o =
      some ({ stAfterFlag st i (applyAttack g x y) with
                play_again_state := PlayAgainState.WaitingForResponses none none },
            attackOuts i x y g ++ [(otherIdx i, Message.LastStandTrigger)] ++ gameOverMsgs i) := by
  rw [handleAttack, if_pos ⟨hturn, hr1, hr2⟩, hg]
  simp [stAfterAttack, stAfterFlag, attackOuts, hs, hf, haw, hres]

theorem peer_set_turn (st : SessionState) (t : Fin 2) (j : Fin 2) :
    ({ st with current_turn := t } : SessionState).peer j = st.peer j := by
  fin_cases j <;> simp [SessionState.peer]

theorem peer_set_pas (st : SessionState) (pas : PlayAgainState) (j : Fin 2) :
    ({ st with play_again_state := pas } : SessionState).peer j = st.peer j := by
  fin_cases j <;> simp [SessionState.peer]

theorem attackOuts_take (i : Fin 2) (x y : Nat) (g : Grid) (l : List (Fin 2 × Message)) :
    (attackOuts i x y g ++ l).take 2 = attackOuts i x y g := rfl

theorem applyAttack_hit_cell (g : Grid) (x y : Nat) (h : g y x = CellState.Ship) :
    applyAttack g x y y x = CellState.Hit := by
  rw [applyAttack, if_pos h]
  exact updateCell_self g x y CellState.Hit

/-! ## C1: attack resolution and notifications -/

/-- C1: an `Attack{x,y}` from the peer on turn while both peers are ready is
resolved against the target's grid: `hit` iff that grid's cell `(x,y)` was
`Ship`, the cell is updated, `sunk` is computed from the updated grid by
`is_ship_sunk_at` (and is `false` on a miss), the attacker is sent
`AttackResult{x,y,hit,sunk}` and the defender the mirrored `Attack{x,y}`
(these are the first two messages written), and the defender's stored grid
afterwards carries `Hit` at the attacked cell whenever the attack hit. -/
theorem attack_resolution (st : SessionState) (i : Fin 2) (x y : Nat) (g : Grid)
    (o : Oracle) (st' : SessionState) (outs : List (Fin 2 × Message))
    (hturn : st.current_turn = i) (hr1 : st.p1.ready = true) (hr2 : st.p2.ready = true)
    (hg : (st.peer (otherIdx i)).grid = some g)
    (hstep : stepMessage st i (Message.Attack x y) o = some (st', outs)) :
    outs.take 2 = [(i, Message.AttackResult x y (decide (g y x = CellState.Ship))
        (if decide (g y x = CellState.Ship) = true then
          is_ship_sunk_at (applyAttack g x y) x y else false)),
      (otherIdx i, Message.Attack x y)] ∧
    (decide (g y x = CellState.Ship) = true ↔ g y x = CellState.Ship) ∧
    (∀ g', (st'.peer (otherIdx i)).grid = some g' →
      g y x = CellState.Ship → g' y x = CellState.Hit) := by
  have hstep' : handleAttack st i x y o = some (st', outs) := hstep
  by_cases hsunk : all_ships_sunk (applyAttack g x y) = true
  · by_cases hflag : (st.peer (otherIdx i)).last_stand_used = true
    · rw [handleAttack_eq_flagUsed st i x y g o hturn hr1 hr2 hg hsunk hflag,
        Option.some.injEq, Prod.mk.injEq] at hstep'
      obtain ⟨hA, hB⟩ := hstep'
      subst hA
      subst hB
      refine ⟨attackOuts_take i x y g _, decide_eq_true_iff, ?_⟩
      intro g' hg' hhit
      rw [peer_set_pas, stAfterAttack, peer_setPeer_same] at hg'
      simp only [Option.some.injEq] at hg'
      rw [← hg']
      exact applyAttack_hit_cell g x y hhit
    · have hflag' : (st.peer (otherIdx i)).last_stand_used = false :=
        Bool.eq_false_iff.mpr hflag
      rcases haw : awaitLastStand o.lastStandWindow with _ | b
      · rw [handleAttack_eq_noSuccess st i x y g o hturn hr1 hr2 hg hsunk hflag'
            (Or.inl haw), Option.some.injEq, Prod.mk.injEq] at hstep'
        obtain ⟨hA, hB⟩ := hstep'
        subst hA
        subst hB
        refine ⟨attackOuts_take i x y g _, decide_eq_true_iff, ?_⟩
        intro g' hg' hhit
        rw [peer_set_pas, stAfterFlag, peer_setPeer_same] at hg'
        simp only [stAfterAttack, peer_setPeer_same, Option.some.injEq] at hg'
        rw [← hg']
        exact applyAttack_hit_cell g x y hhit
      · cases b with
        | false =>
          rw [handleAttack_eq_noSuccess st i x y g o hturn hr1 hr2 hg hsunk hflag'
              (Or.inr haw), Option.some.injEq, Prod.mk.injEq] at hstep'
          obtain ⟨hA, hB⟩ := hstep'
          subst hA
          subst hB
          refine ⟨attackOuts_take i x y g _, decide_eq_true_iff, ?_⟩
          intro g' hg' hhit
          rw [peer_set_pas, stAfterFlag, peer_setPeer_same] at hg'
          simp only [stAfterAttack, peer_setPeer_same, Option.some.injEq] at hg'
          rw [← hg']
          exact applyAttack_hit_cell g x y hhit
        | true =>
          rcases hres : restore_random_ship (applyAttack g x y) o.restoreIdxs with _ | og
          · rw [handleAttack] at hstep'
            rw [if_pos ⟨hturn, hr1, hr2⟩, hg] at hstep'
            simp only [hsunk, hflag', haw, hres] at hstep'
            simp at hstep'
          · cases og with
            | none =>
              rw [handleAttack_eq_restoreFailed st i x y g o hturn hr1 hr2 hg hsunk hflag'
                  haw hres, Option.some.injEq, Prod.mk.injEq] at hstep'
              obtain ⟨hA, hB⟩ := hstep'
              subst hA
              subst hB
              refine ⟨attackOuts_take i x y g _, decide_eq_true_iff, ?_⟩
              intro g' hg' hhit
              rw [peer_set_pas, stAfterFlag, peer_setPeer_same] at hg'
              simp only [stAfterAttack, peer_setPeer_same, Option.some.injEq] at hg'
              rw [← hg']
              exact applyAttack_hit_cell g x y hhit
            | some g2 =>
              rw [handleAttack_eq_restored st i x y g g2 o hturn hr1 hr2 hg hsunk hflag'
                  haw hres, Option.some.injEq, Prod.mk.injEq] at hstep'
              obtain ⟨hA, hB⟩ := hstep'
              subst hA
              subst hB
              refine ⟨attackOuts_take i x y g _, decide_eq_true_iff, ?_⟩
              intro g' hg' hhit
              rw [peer_setPeer_same] at hg'
              simp only [Option.some.injEq] at hg'
              rw [← hg']
              rw [restore_random_ship_preserves (applyAttack g x y) o.restoreIdxs g2 hres y x
                  (by rw [applyAttack_hit_cell g x y hhit]; intro hc; exact absurd hc (by decide))]
              exact applyAttack_hit_cell g x y hhit
  · have hns : all_ships_sunk (applyAttack g x y) = false := Bool.eq_false_iff.mpr hsunk
    rw [handleAttack_eq_notSunk st i x y g o hturn hr1 hr2 hg hns,
      Option.some.injEq, Prod.mk.injEq] at hstep'
    obtain ⟨hA, hB⟩ := hstep'
    subst hA
    subst hB
    refine ⟨attackOuts_take i x y g _, decide_eq_true_iff, ?_⟩
    intro g' hg' hhit
    rw [peer_set_turn, stAfterAttack, peer_setPeer_same] at hg'
    simp only [Option.some.injEq] at hg'
    rw [← hg']
    exact applyAttack_hit_cell g x y hhit

/-! ## Concrete witness data -/

/-- An all-empty grid. -/
def gridEmpty : Grid := fun _ _ => CellState.Empty

/-- A grid with one length-2 horizontal ship at (3,4)-(4,4). -/
def gridShip34 : Grid :=
  fun j i => if j = 4 ∧ (i = 3 ∨ i = 4) then CellState.Ship else CellState.Empty

/-- A grid whose only remaining un-hit ship cell is (3,4). -/
def gridLastCell : Grid :=
  fun j i =>
    if j = 4 ∧ i = 3 then CellState.Ship
    else if j = 4 ∧ i = 4 then CellState.Hit
    else CellState.Empty

/-- An environment with an empty last-stand window and no random samples. -/
def oracle0 : Oracle :=
  { lastStandWindow := [], restoreIdxs := [], missile1 := 0, missile2 := 0 }

/-- Both peers ready; peer 1 defends `gridShip34`. -/
def stW : SessionState :=
  { p1 := { grid := some gridEmpty, ready := true, last_stand_used := false },
    p2 := { grid := some gridShip34, ready := true, last_stand_used := false },
    current_turn := 0, game_over := false, play_again_state := PlayAgainState.None }

/-- The transition taken by `stW` on peer 0 attacking (3,4). -/
def resW : SessionState × List (Fin 2 × Message) :=
  (stepMessage stW 0 (Message.Attack 3 4) oracle0).getD (stW, [])

theorem attack_resolution_witness :
    stW.current_turn = 0 ∧ stW.p1.ready = true ∧ stW.p2.ready = true ∧
    (stW.peer (otherIdx 0)).grid = some gridShip34 ∧
    stepMessage stW 0 (Message.Attack 3 4) oracle0 = some (resW.1, resW.2) ∧
    (resW.2.take 2 = [(0, Message.AttackResult 3 4 (decide (gridShip34 4 3 = CellState.Ship))
        (if decide (gridShip34 4 3 = CellState.Ship) = true then
          is_ship_sunk_at (applyAttack gridShip34 3 4) 3 4 else false)),
      (otherIdx 0, Message.Attack 3 4)] ∧
     (decide (gridShip34 4 3 = CellState.Ship) = true ↔ gridShip34 4 3 = CellState.Ship) ∧
     (∀ g', (resW.1.peer (otherIdx 0)).grid = some g' →
        gridShip34 4 3 = CellState.Ship → g' 4 3 = CellState.Hit)) :=
  ⟨rfl, rfl, rfl, rfl, rfl,
    attack_resolution stW 0 3 4 gridShip34 oracle0 resW.1 resW.2 rfl rfl rfl rfl rfl⟩

/-! ## C2: turn alternation -/

/-- C2: an accepted attack that leaves the defender's grid not fully sunk
flips `current_turn` to the other index (a strict 0/1 toggle), the new
attacker is sent `YourTurn` and the other peer `OpponentTurn`; conversely a
message transition changes `current_turn` only for exactly such an attack,
and the play-again bookkeeping never moves the turn except on the
both-agreed reset. -/
theorem turn_alternation (st : SessionState) (i : Fin 2) (o : Oracle) :
    (∀ x y g, st.current_turn = i → st.p1.ready = true → st.p2.ready = true →
      (st.peer (otherIdx i)).grid = some g →
      all_ships_sunk (applyAttack g x y) = false →
      stepMessage st i (Message.Attack x y) o =
        some ({ stAfterAttack st i (applyAttack g x y) with current_turn := otherIdx i },
              attackOuts i x y g ++ turnMsgs (otherIdx i)) ∧
      otherIdx i ≠ i ∧
      (otherIdx i, Message.YourTurn) ∈ attackOuts i x y g ++ turnMsgs (otherIdx i) ∧
      (i, Message.OpponentTurn) ∈ attackOuts i x y g ++ turnMsgs (otherIdx i)) ∧
    (∀ msg st' outs, stepMessage st i msg o = some (st', outs) →
      st'.current_turn ≠ st.current_turn →
      ∃ x y g, msg = Message.Attack x y ∧ st.current_turn = i ∧
        st.p1.ready = true ∧ st.p2.ready = true ∧
        (st.peer (otherIdx i)).grid = some g ∧
        all_ships_sunk (applyAttack g x y) = false ∧
        st'.current_turn = otherIdx i) ∧
    (∀ t, st.play_again_state ≠ PlayAgainState.BothAgreed →
      (stepPlayAgain st t).1.current_turn = st.current_turn) := by
  refine ⟨?_, ?_, ?_⟩
  · intro x y g hturn hr1 hr2 hg hns
    refine ⟨handleAttack_eq_notSunk st i x y g o hturn hr1 hr2 hg hns, otherIdx_ne i, ?_, ?_⟩
    · fin_cases i <;> simp [attackOuts, turnMsgs, otherIdx]
    · fin_cases i <;> simp [attackOuts, turnMsgs, otherIdx]
  · intro msg st' outs hstep hne
    have htriv : (some (st, []) : Option (SessionState × List (Fin 2 × Message)))
        = some (st', outs) → False := by
      intro h
      rw [Option.some.injEq, Prod.mk.injEq] at h
      obtain ⟨hA, _⟩ := h
      subst hA
      exact hne rfl
    cases msg
    case PlaceShips g =>
      simp only [stepMessage] at hstep
      split at hstep <;>
        (rw [Option.some.injEq, Prod.mk.injEq] at hstep
         obtain ⟨hA, _⟩ := hstep
         subst hA
         exact absurd (setPeer_current_turn st i _) hne)
    case Attack x y =>
      have hstep' : handleAttack st i x y o = some (st', outs) := hstep
      by_cases hacc : st.current_turn = i ∧ st.p1.ready = true ∧ st.p2.ready = true
      · obtain ⟨h1, h2, h3⟩ := hacc
        rcases hgr : (st.peer (otherIdx i)).grid with _ | g
        · rw [handleAttack_eq_noGrid st i x y o hgr] at hstep'
          exact (htriv hstep').elim
        · by_cases hsunk : all_ships_sunk (applyAttack g x y) = true
          · by_cases hflag : (st.peer (otherIdx i)).last_stand_used = true
            · rw [handleAttack_eq_flagUsed st i x y g o h1 h2 h3 hgr hsunk hflag,
                Option.some.injEq, Prod.mk.injEq] at hstep'
              obtain ⟨hA, _⟩ := hstep'
              subst hA
              exact absurd (by simp [stAfterAttack, setPeer_current_turn]) hne
            · have hflag' : (st.peer (otherIdx i)).last_stand_used = false :=
                Bool.eq_false_iff.mpr hflag
              rcases haw : awaitLastStand o.lastStandWindow with _ | b
              · rw [handleAttack_eq_noSuccess st i x y g o h1 h2 h3 hgr hsunk hflag'
                    (Or.inl haw), Option.some.injEq, Prod.mk.injEq] at hstep'
                obtain ⟨hA, _⟩ := hstep'
                subst hA
                exact absurd
                  (by simp [stAfterFlag, stAfterAttack, setPeer_current_turn]) hne
              · cases b with
                | false =>
                  rw [handleAttack_eq_noSuccess st i x y g o h1 h2 h3 hgr hsunk hflag'
                      (Or.inr haw), Option.some.injEq, Prod.mk.injEq] at hstep'
                  obtain ⟨hA, _⟩ := hstep'
                  subst hA
                  exact absurd
                    (by simp [stAfterFlag, stAfterAttack, setPeer_current_turn]) hne
                | true =>
                  rcases hres : restore_random_ship (applyAttack g x y) o.restoreIdxs
                      with _ | og
                  · rw [handleAttack, if_pos ⟨h1, h2, h3⟩, hgr] at hstep'
                    simp only [hsunk, hflag', haw, hres] at hstep'
                    simp at hstep'
                  · cases og with
                    | none =>
                      rw [handleAttack_eq_restoreFailed st i x y g o h1 h2 h3 hgr hsunk
                          hflag' haw hres, Option.some.injEq, Prod.mk.injEq] at hstep'
                      obtain ⟨hA, _⟩ := hstep'
                      subst hA
                      exact absurd
                        (by simp [stAfterFlag, stAfterAttack, setPeer_current_turn]) hne
                    | some g2 =>
                      rw [handleAttack_eq_restored st i x y g g2 o h1 h2 h3 hgr hsunk
                          hflag' haw hres, Option.some.injEq, Prod.mk.injEq] at hstep'
                      obtain ⟨hA, _⟩ := hstep'
                      subst hA
                      exact absurd
                        (by simp [stAfterFlag, stAfterAttack, setPeer_current_turn]) hne
          · have hns : all_ships_sunk (applyAttack g x y) = false :=
              Bool.eq_false_iff.mpr hsunk
            rw [handleAttack_eq_notSunk st i x y g o h1 h2 h3 hgr hns,
              Option.some.injEq, Prod.mk.injEq] at hstep'
            obtain ⟨hA, _⟩ := hstep'
            subst hA
            exact ⟨x, y, g, rfl, h1, h2, h3, rfl, hns, rfl⟩
      · rw [handleAttack_eq_rejected st i x y o hacc] at hstep'
        exact (htriv hstep').elim
    case PlayAgainResponse w =>
      rcases hpas : st.play_again_state with _ | ⟨r1, r2⟩ | _ | _ | _ <;>
        simp only [stepMessage, hpas] at hstep
      case WaitingForResponses =>
        split at hstep <;>
          (rw [Option.some.injEq, Prod.mk.injEq] at hstep
           obtain ⟨hA, _⟩ := hstep
           subst hA
           exact (hne rfl).elim)
      all_goals exact (htriv hstep).elim
    case CardUsed card tx ty =>
      have hturn : (handleCardUsed st i card o).1.current_turn = st.current_turn := by
        cases card <;>
          rcases hgr : (st.peer (otherIdx i)).grid with _ | g <;>
            simp [handleCardUsed, hgr, setPeer_current_turn]
      simp only [stepMessage] at hstep
      rw [Option.some.injEq] at hstep
      have hA : st' = (handleCardUsed st i card o).1 := by
        rw [hstep]
      rw [hA] at hne
      exact absurd hturn hne
    case Quit =>
      simp only [stepMessage] at hstep
      rw [Option.some.injEq, Prod.mk.injEq] at hstep
      obtain ⟨hA, _⟩ := hstep
      subst hA
      exact (hne rfl).elim
    all_goals
      simp only [stepMessage] at hstep
      exact (htriv hstep).elim
  · intro t hpas
    rcases h : st.play_again_state with _ | ⟨r1, r2⟩ | _ | _ | _ <;>
      simp only [stepPlayAgain, h]
    case WaitingForResponses =>
      split <;> rfl
    case BothAgreed => exact absurd h hpas

theorem turn_alternation_witness :
    stW.current_turn = 0 ∧ all_ships_sunk (applyAttack gridShip34 3 4) = false ∧
    (stepMessage stW 0 (Message.Attack 3 4) oracle0 =
      some ({ stAfterAttack stW 0 (applyAttack gridShip34 3 4) with
                current_turn := otherIdx 0 },
            attackOuts 0 3 4 gridShip34 ++ turnMsgs (otherIdx 0)) ∧
     otherIdx 0 ≠ 0 ∧
     (otherIdx 0, Message.YourTurn) ∈ attackOuts 0 3 4 gridShip34 ++ turnMsgs (otherIdx 0) ∧
     ((0 : Fin 2), Message.OpponentTurn) ∈
        attackOuts 0 3 4 gridShip34 ++ turnMsgs (otherIdx 0)) :=
  ⟨rfl, rfl, (turn_alternation stW 0 oracle0).1 3 4 gridShip34 rfl rfl rfl rfl rfl⟩

/-! ## C5: PlaceShips after ready (spec claims silent ignore; the code has no
such guard and re-places) -/

/-- The session used for the C5 counterexample: peer 0 already placed
`gridEmpty` and is ready; peer 1 has not placed yet. -/
def c5_state : SessionState :=
  { p1 := { grid := some gridEmpty, ready := true, last_stand_used := false },
    p2 := { grid := none, ready := false, last_stand_used := false },
    current_turn := 0, game_over := false, play_again_state := PlayAgainState.None }

/-- C5 counterexample: with peer 0 already ready (stored grid `gridEmpty`), a
second `PlaceShips(gridShip34)` is NOT ignored: the stored grid is replaced by
the new grid (which differs from the old one at (3,4)) and a
`WaitingForOpponent` reply is sent, contradicting "grid unchanged and no
reply". -/
theorem placeShips_after_ready_not_ignored :
    stepMessage c5_state 0 (Message.PlaceShips gridShip34) oracle0 =
      some (setPeer c5_state 0
              { c5_state.peer 0 with grid := some gridShip34, ready := true },
            [(0, Message.WaitingForOpponent)]) ∧
    (setPeer c5_state 0
      { c5_state.peer 0 with grid := some gridShip34, ready := true }).p1.grid
        = some gridShip34 ∧
    gridShip34 4 3 ≠ gridEmpty 4 3 ∧
    [((0 : Fin 2), Message.WaitingForOpponent)] ≠ ([] : List (Fin 2 × Message)) :=
  ⟨rfl, rfl, by decide, by simp⟩

/-- C5 (amended): a `PlaceShips` received after the sender's ready flag is
already true is processed like any placement: the stored grid is overwritten
with the new grid, ready stays true, the usual reply is sent (`GameStart` and
turn messages to both if the other peer is ready, else `WaitingForOpponent`),
and the other peer's record and the turn are unchanged. -/
theorem placeShips_after_ready_replaces (st : SessionState) (i : Fin 2) (g : Grid)
    (o : Oracle) (hready : (st.peer i).ready = true) :
    stepMessage st i (Message.PlaceShips g) o =
      some (setPeer st i { st.peer i with grid := some g, ready := true },
        if (st.peer (otherIdx i)).ready = true then
          [(0, Message.GameStart), (1, Message.GameStart),
           (0, Message.YourTurn), (1, Message.OpponentTurn)]
        else [(i, Message.WaitingForOpponent)]) ∧
    (setPeer st i { st.peer i with grid := some g, ready := true }).peer i =
      { st.peer i with grid := some g, ready := true } ∧
    (setPeer st i { st.peer i with grid := some g, ready := true }).peer (otherIdx i) =
      st.peer (otherIdx i) ∧
    (setPeer st i { st.peer i with grid := some g, ready := true }).current_turn =
      st.current_turn := by
  refine ⟨?_, peer_setPeer_same st i _, peer_setPeer_other st i (otherIdx i) _ (otherIdx_ne i),
    setPeer_current_turn st i _⟩
  simp only [stepMessage]
  split <;> rfl

theorem placeShips_after_ready_replaces_witness :
    (c5_state.peer 0).ready = true ∧
    stepMessage c5_state 0 (Message.PlaceShips gridShip34) oracle0 =
      some (setPeer c5_state 0
              { c5_state.peer 0 with grid := some gridShip34, ready := true },
        if (c5_state.peer (otherIdx 0)).ready = true then
          [(0, Message.GameStart), (1, Message.GameStart),
           (0, Message.YourTurn), (1, Message.OpponentTurn)]
        else [(0, Message.WaitingForOpponent)]) :=
  ⟨rfl, (placeShips_after_ready_replaces c5_state 0 gridShip34 oracle0 rfl).1⟩

/-! ## C7 support lemmas -/

theorem trigger_not_mem_attackOuts (i : Fin 2) (x y : Nat) (g : Grid) (j : Fin 2) :
    (j, Message.LastStandTrigger) ∉ attackOuts i x y g := by
  simp [attackOuts]

theorem trigger_not_mem_gameOverMsgs (w j : Fin 2) :
    (j, Message.LastStandTrigger) ∉ gameOverMsgs w := by
  simp [gameOverMsgs]

theorem trigger_not_mem_turnMsgs (t j : Fin 2) :
    (j, Message.LastStandTrigger) ∉ turnMsgs t := by
  intro h
  rw [turnMsgs] at h
  rcases List.mem_cons.mp h with h1 | h1
  · have h2 := congrArg Prod.snd h1
    simp only at h2
    split at h2 <;> simp at h2
  · rcases List.mem_cons.mp h1 with h2 | h2
    · have h3 := congrArg Prod.snd h2
      simp only at h3
      split at h3 <;> simp at h3
    · exact absurd h2 (List.not_mem_nil _)

theorem trigger_not_mem_cardOuts (st : SessionState) (i : Fin 2) (c : PowerUp) (o : Oracle)
    (j : Fin 2) : (j, Message.LastStandTrigger) ∉ (handleCardUsed st i c o).2 := by
  cases c with
  | Shield => simp [handleCardUsed]
  | Repair => simp [handleCardUsed]
  | Radar =>
    rcases hgr : (st.peer (otherIdx i)).grid with _ | g
    · simp [handleCardUsed, hgr]
    · simp only [handleCardUsed, hgr]
      intro h
      rcases List.mem_map.mp h with ⟨p, _, hp⟩
      have h3 := congrArg Prod.snd hp
      simp at h3
  | MissileStrike =>
    rcases hgr : (st.peer (otherIdx i)).grid with _ | g
    · simp [handleCardUsed, hgr]
    · rcases h1 : missileOnce g (missileTargets g) o.missile1 with ⟨ga, ta, pa⟩
      rcases h2 : missileOnce ga ta o.missile2 with ⟨gb, tb, pb⟩
      simp only [handleCardUsed, hgr, h1, h2]
      cases pa <;> cases pb <;> simp

theorem flag_stAfterAttack (st : SessionState) (i : Fin 2) (g1 : Grid) (j : Fin 2) :
    ((stAfterAttack st i g1).peer j).last_stand_used = (st.peer j).last_stand_used := by
  by_cases hj : j = otherIdx i
  · subst hj
    rw [stAfterAttack, peer_setPeer_same]
  · rw [stAfterAttack, peer_setPeer_other st (otherIdx i) j _ hj]

theorem flag_stAfterFlag_other (st : SessionState) (i : Fin 2) (g1 : Grid) :
    ((stAfterFlag st i g1).peer (otherIdx i)).last_stand_used = true := by
  rw [stAfterFlag, peer_setPeer_same]

theorem flag_stAfterFlag_keep (st : SessionState) (i : Fin 2) (g1 : Grid) (j : Fin 2)
    (hj : j ≠ otherIdx i) :
    ((stAfterFlag st i g1).peer j).last_stand_used = (st.peer j).last_stand_used := by
  rw [stAfterFlag, peer_setPeer_other _ (otherIdx i) j _ hj, flag_stAfterAttack]

theorem cardUsed_flag (st : SessionState) (i : Fin 2) (c : PowerUp) (o : Oracle)
    (j : Fin 2) :
    (((handleCardUsed st i c o).1).peer j).last_stand_used =
      (st.peer j).last_stand_used := by
  cases c with
  | Shield => rfl
  | Repair => rfl
  | Radar =>
    rcases hgr : (st.peer (otherIdx i)).grid with _ | g <;> simp [handleCardUsed, hgr]
  | MissileStrike =>
    rcases hgr : (st.peer (otherIdx i)).grid with _ | g
    · simp [handleCardUsed, hgr]
    · rcases h1 : missileOnce g (missileTargets g) o.missile1 with ⟨ga, ta, pa⟩
      rcases h2 : missileOnce ga ta o.missile2 with ⟨gb, tb, pb⟩
      simp only [handleCardUsed, hgr, h1, h2]
      by_cases hj : j = otherIdx i
      · subst hj
        rw [peer_setPeer_same]
      · rw [peer_setPeer_other _ (otherIdx i) j _ hj]

theorem stepMessage_trigger_analysis (st : SessionState) (i : Fin 2) (o : Oracle) :
    ∀ msg st' outs j, stepMessage st i msg o = some (st', outs) →
      (j, Message.LastStandTrigger) ∈ outs →
      j = otherIdx i ∧ (st.peer j).last_stand_used = false ∧
      (st'.peer j).last_stand_used = true ∧
      ∃ x y g, msg = Message.Attack x y ∧ st.current_turn = i ∧
        st.p1.ready = true ∧ st.p2.ready = true ∧ (st.peer j).grid = some g ∧
        all_ships_sunk (applyAttack g x y) = true := by
  intro msg st' outs j hstep hmem
  cases msg
  case PlaceShips g =>
    simp only [stepMessage] at hstep
    split at hstep <;>
      (rw [Option.some.injEq, Prod.mk.injEq] at hstep
       obtain ⟨_, hB⟩ := hstep
       subst hB
       simp at hmem)
  case Attack x y =>
    have hstep' : handleAttack st i x y o = some (st', outs) := hstep
    by_cases hacc : st.current_turn = i ∧ st.p1.ready = true ∧ st.p2.ready = true
    · obtain ⟨h1, h2, h3⟩ := hacc
      rcases hgr : (st.peer (otherIdx i)).grid with _ | g
      · rw [handleAttack_eq_noGrid st i x y o hgr, Option.some.injEq,
          Prod.mk.injEq] at hstep'
        obtain ⟨_, hB⟩ := hstep'
        subst hB
        simp at hmem
      · by_cases hsunk : all_ships_sunk (applyAttack g x y) = true
        · by_cases hflag : (st.peer (otherIdx i)).last_stand_used = true
          · rw [handleAttack_eq_flagUsed st i x y g o h1 h2 h3 hgr hsunk hflag,
              Option.some.injEq, Prod.mk.injEq] at hstep'
            obtain ⟨_, hB⟩ := hstep'
            subst hB
            rcases List.mem_append.mp hmem with hm | hm
            · exact absurd hm (trigger_not_mem_attackOuts i x y g j)
            · exact absurd hm (trigger_not_mem_gameOverMsgs i j)
          · have hflag' : (st.peer (otherIdx i)).last_stand_used = false :=
              Bool.eq_false_iff.mpr hflag
            have hj : ∀ l1 l2 : List (Fin 2 × Message),
                (j, Message.LastStandTrigger) ∈
                  attackOuts i x y g ++ [(otherIdx i, Message.LastStandTrigger)] ++ l1 →
                ((j, Message.LastStandTrigger) ∉ l1) → j = otherIdx i := by
              intro l1 _ hm hn
              rcases List.mem_append.mp hm with hm1 | hm1
              · rcases List.mem_append.mp hm1 with hm2 | hm2
                · exact absurd hm2 (trigger_not_mem_attackOuts i x y g j)
                · rcases List.mem_cons.mp hm2 with hm3 | hm3
                  · exact congrArg Prod.fst hm3
                  · exact absurd hm3 (List.not_mem_nil _)
              · exact absurd hm1 hn
            rcases haw : awaitLastStand o.lastStandWindow with _ | b
            · rw [handleAttack_eq_noSuccess st i x y g o h1 h2 h3 hgr hsunk hflag'
                  (Or.inl haw), Option.some.injEq, Prod.mk.injEq] at hstep'
              obtain ⟨hA, hB⟩ := hstep'
              subst hA
              subst hB
              have hjv : j = otherIdx i :=
                hj _ [] hmem (trigger_not_mem_gameOverMsgs i j)
              subst hjv
              refine ⟨rfl, hflag', ?_, x, y, g, rfl, h1, h2, h3, hgr, hsunk⟩
              rw [peer_set_pas]
              exact flag_stAfterFlag_other st i _
            · cases b with
              | false =>
                rw [handleAttack_eq_noSuccess st i x y g o h1 h2 h3 hgr hsunk hflag'
                    (Or.inr haw), Option.some.injEq, Prod.mk.injEq] at hstep'
                obtain ⟨hA, hB⟩ := hstep'
                subst hA
                subst hB
                have hjv : j = otherIdx i :=
                  hj _ [] hmem (trigger_not_mem_gameOverMsgs i j)
                subst hjv
                refine ⟨rfl, hflag', ?_, x, y, g, rfl, h1, h2, h3, hgr, hsunk⟩
                rw [peer_set_pas]
                exact flag_stAfterFlag_other st i _
              | true =>
                rcases hres : restore_random_ship (applyAttack g x y) o.restoreIdxs
                    with _ | og
                · rw [handleAttack, if_pos ⟨h1, h2, h3⟩, hgr] at hstep'
                  simp only [hsunk, hflag', haw, hres] at hstep'
                  simp at hstep'
                · cases og with
                  | none =>
                    rw [handleAttack_eq_restoreFailed st i x y g o h1 h2 h3 hgr hsunk
                        hflag' haw hres, Option.some.injEq, Prod.mk.injEq] at hstep'
                    obtain ⟨hA, hB⟩ := hstep'
                    subst hA
                    subst hB
                    have hjv : j = otherIdx i :=
                      hj _ [] hmem (trigger_not_mem_gameOverMsgs i j)
                    subst hjv
                    refine ⟨rfl, hflag', ?_, x, y, g, rfl, h1, h2, h3, hgr, hsunk⟩
                    rw [peer_set_pas]
                    exact flag_stAfterFlag_other st i _
                  | some g2 =>
                    rw [handleAttack_eq_restored st i x y g g2 o h1 h2 h3 hgr hsunk
                        hflag' haw hres, Option.some.injEq, Prod.mk.injEq] at hstep'
                    obtain ⟨hA, hB⟩ := hstep'
                    subst hA
                    subst hB
                    have hjv : j = otherIdx i := by
                      rcases List.mem_append.mp hmem with hm | hm
                      · exact absurd hm (trigger_not_mem_attackOuts i x y g j)
                      · rcases List.mem_cons.mp hm with hm1 | hm1
                        · exact congrArg Prod.fst hm1
                        · exact absurd hm1 (List.not_mem_nil _)
                    subst hjv
                    refine ⟨rfl, hflag', ?_, x, y, g, rfl, h1, h2, h3, hgr, hsunk⟩
                    rw [peer_setPeer_same]
                    exact flag_stAfterFlag_other st i _
        · have hns : all_ships_sunk (applyAttack g x y) = false :=
            Bool.eq_false_iff.mpr hsunk
          rw [handleAttack_eq_notSunk st i x y g o h1 h2 h3 hgr hns,
            Option.some.injEq, Prod.mk.injEq] at hstep'
          obtain ⟨_, hB⟩ := hstep'
          subst hB
          rcases List.mem_append.mp hmem with hm | hm
          · exact absurd hm (trigger_not_mem_attackOuts i x y g j)
          · exact absurd hm (trigger_not_mem_turnMsgs (otherIdx i) j)
    · rw [handleAttack_eq_rejected st i x y o hacc, Option.some.injEq,
        Prod.mk.injEq] at hstep'
      obtain ⟨_, hB⟩ := hstep'
      subst hB
      simp at hmem
  case PlayAgainResponse w =>
    rcases hpas : st.play_again_state with _ | ⟨r1, r2⟩ | _ | _ | _ <;>
      simp only [stepMessage, hpas] at hstep
    case WaitingForResponses =>
      split at hstep <;>
        (rw [Option.some.injEq, Prod.mk.injEq] at hstep
         obtain ⟨_, hB⟩ := hstep
         subst hB
         simp at hmem)
    all_goals
      rw [Option.some.injEq, Prod.mk.injEq] at hstep
      obtain ⟨_, hB⟩ := hstep
      subst hB
      simp at hmem
  case CardUsed card tx ty =>
    simp only [stepMessage] at hstep
    rw [Option.some.injEq] at hstep
    have hB : outs = (handleCardUsed st i card o).2 := by
      rw [hstep]
    rw [hB] at hmem
    exact absurd hmem (trigger_not_mem_cardOuts st i card o j)
  case Quit =>
    simp only [stepMessage] at hstep
    rw [Option.some.injEq, Prod.mk.injEq] at hstep
    obtain ⟨_, hB⟩ := hstep
    subst hB
    simp at hmem
  all_goals
    simp only [stepMessage] at hstep
    rw [Option.some.injEq, Prod.mk.injEq] at hstep
    obtain ⟨_, hB⟩ := hstep
    subst hB
    simp at hmem

theorem stepMessage_flag_monotone (st : SessionState) (i : Fin 2) (o : Oracle) :
    ∀ msg st' outs j, stepMessage st i msg o = some (st', outs) →
      (st.peer j).last_stand_used = true → (st'.peer j).last_stand_used = true := by
  intro msg st' outs j hstep hflag
  cases msg
  case PlaceShips g =>
    simp only [stepMessage] at hstep
    split at hstep <;>
      (rw [Option.some.injEq, Prod.mk.injEq] at hstep
       obtain ⟨hA, _⟩ := hstep
       subst hA
       by_cases hj : j = i
       · subst hj
         rw [peer_setPeer_same]
         exact hflag
       · rw [peer_setPeer_other st i j _ hj]
         exact hflag)
  case Attack x y =>
    have hstep' : handleAttack st i x y o = some (st', outs) := hstep
    by_cases hacc : st.current_turn = i ∧ st.p1.ready = true ∧ st.p2.ready = true
    · obtain ⟨h1, h2, h3⟩ := hacc
      rcases hgr : (st.peer (otherIdx i)).grid with _ | g
      · rw [handleAttack_eq_noGrid st i x y o hgr, Option.some.injEq,
          Prod.mk.injEq] at hstep'
        obtain ⟨hA, _⟩ := hstep'
        subst hA
        exact hflag
      · have hkeepFlag : ∀ g1, ((stAfterFlag st i g1).peer j).last_stand_used = true := by
          intro g1
          by_cases hj : j = otherIdx i
          · subst hj
            exact flag_stAfterFlag_other st i g1
          · rw [flag_stAfterFlag_keep st i g1 j hj]
            exact hflag
        by_cases hsunk : all_ships_sunk (applyAttack g x y) = true
        · by_cases hflag2 : (st.peer (otherIdx i)).last_stand_used = true
          · rw [handleAttack_eq_flagUsed st i x y g o h1 h2 h3 hgr hsunk hflag2,
              Option.some.injEq, Prod.mk.injEq] at hstep'
            obtain ⟨hA, _⟩ := hstep'
            subst hA
            rw [peer_set_pas, flag_stAfterAttack]
            exact hflag
          · have hflag' : (st.peer (otherIdx i)).last_stand_used = false :=
              Bool.eq_false_iff.mpr hflag2
            rcases haw : awaitLastStand o.lastStandWindow with _ | b
            · rw [handleAttack_eq_noSuccess st i x y g o h1 h2 h3 hgr hsunk hflag'
                  (Or.inl haw), Option.some.injEq, Prod.mk.injEq] at hstep'
              obtain ⟨hA, _⟩ := hstep'
              subst hA
              rw [peer_set_pas]
              exact hkeepFlag _
            · cases b with
              | false =>
                rw [handleAttack_eq_noSuccess st i x y g o h1 h2 h3 hgr hsunk hflag'
                    (Or.inr haw), Option.some.injEq, Prod.mk.injEq] at hstep'
                obtain ⟨hA, _⟩ := hstep'
                subst hA
                rw [peer_set_pas]
                exact hkeepFlag _
              | true =>
                rcases hres : restore_random_ship (applyAttack g x y) o.restoreIdxs
                    with _ | og
                · rw [handleAttack, if_pos ⟨h1, h2, h3⟩, hgr] at hstep'
                  simp only [hsunk, hflag', haw, hres] at hstep'
                  simp at hstep'
                · cases og with
                  | none =>
                    rw [handleAttack_eq_restoreFailed st i x y g o h1 h2 h3 hgr hsunk
                        hflag' haw hres, Option.some.injEq, Prod.mk.injEq] at hstep'
                    obtain ⟨hA, _⟩ := hstep'
                    subst hA
                    rw [peer_set_pas]
                    exact hkeepFlag _
                  | some g2 =>
                    rw [handleAttack_eq_restored st i x y g g2 o h1 h2 h3 hgr hsunk
                        hflag' haw hres, Option.some.injEq, Prod.mk.injEq] at hstep'
                    obtain ⟨hA, _⟩ := hstep'
                    subst hA
                    by_cases hj : j = otherIdx i
                    · subst hj
                      rw [peer_setPeer_same]
                      exact flag_stAfterFlag_other st i _
                    · rw [peer_setPeer_other _ (otherIdx i) j _ hj]
                      exact hkeepFlag _
        · have hns : all_ships_sunk (applyAttack g x y) = false :=
            Bool.eq_false_iff.mpr hsunk
          rw [handleAttack_eq_notSunk st i x y g o h1 h2 h3 hgr hns,
            Option.some.injEq, Prod.mk.injEq] at hstep'
          obtain ⟨hA, _⟩ := hstep'
          subst hA
          rw [peer_set_turn, flag_stAfterAttack]
          exact hflag
    · rw [handleAttack_eq_rejected st i x y o hacc, Option.some.injEq,
        Prod.mk.injEq] at hstep'
      obtain ⟨hA, _⟩ := hstep'
      subst hA
      exact hflag
  case PlayAgainResponse w =>
    rcases hpas : st.play_again_state with _ | ⟨r1, r2⟩ | _ | _ | _ <;>
      simp only [stepMessage, hpas] at hstep
    case WaitingForResponses =>
      split at hstep <;>
        (rw [Option.some.injEq, Prod.mk.injEq] at hstep
         obtain ⟨hA, _⟩ := hstep
         subst hA
         exact hflag)
    all_goals
      rw [Option.some.injEq, Prod.mk.injEq] at hstep
      obtain ⟨hA, _⟩ := hstep
      subst hA
      exact hflag
  case CardUsed card tx ty =>
    simp only [stepMessage] at hstep
    rw [Option.some.injEq] at hstep
    have hA : st' = (handleCardUsed st i card o).1 := by
      rw [hstep]
    rw [hA, cardUsed_flag]
    exact hflag
  case Quit =>
    simp only [stepMessage] at hstep
    rw [Option.some.injEq, Prod.mk.injEq] at hstep
    obtain ⟨hA, _⟩ := hstep
    subst hA
    exact hflag
  all_goals
    simp only [stepMessage] at hstep
    rw [Option.some.injEq, Prod.mk.injEq] at hstep
    obtain ⟨hA, _⟩ := hstep
    subst hA
    exact hflag

theorem stepMessage_timeout_eq_false (st : SessionState) (i : Fin 2) (o : Oracle)
    (hnone : awaitLastStand o.lastStandWindow = none) :
    ∀ msg, stepMessage st i msg o =
      stepMessage st i msg { o with lastStandWindow := [Message.LastStandResult false] } := by
  intro msg
  cases msg
  case Attack x y =>
    show handleAttack st i x y o =
      handleAttack st i x y { o with lastStandWindow := [Message.LastStandResult false] }
    by_cases hacc : st.current_turn = i ∧ st.p1.ready = true ∧ st.p2.ready = true
    · obtain ⟨h1, h2, h3⟩ := hacc
      rcases hgr : (st.peer (otherIdx i)).grid with _ | g
      · rw [handleAttack_eq_noGrid st i x y o hgr,
          handleAttack_eq_noGrid st i x y _ hgr]
      · by_cases hsunk : all_ships_sunk (applyAttack g x y) = true
        · by_cases hflag : (st.peer (otherIdx i)).last_stand_used = true
          · rw [handleAttack_eq_flagUsed st i x y g o h1 h2 h3 hgr hsunk hflag,
              handleAttack_eq_flagUsed st i x y g _ h1 h2 h3 hgr hsunk hflag]
          · have hflag' : (st.peer (otherIdx i)).last_stand_used = false :=
              Bool.eq_false_iff.mpr hflag
            rw [handleAttack_eq_noSuccess st i x y g o h1 h2 h3 hgr hsunk hflag'
                (Or.inl hnone),
              handleAttack_eq_noSuccess st i x y g
                { o with lastStandWindow := [Message.LastStandResult false] }
                h1 h2 h3 hgr hsunk hflag' (Or.inr rfl)]
        · have hns : all_ships_sunk (applyAttack g x y) = false :=
            Bool.eq_false_iff.mpr hsunk
          rw [handleAttack_eq_notSunk st i x y g o h1 h2 h3 hgr hns,
            handleAttack_eq_notSunk st i x y g _ h1 h2 h3 hgr hns]
    · rw [handleAttack_eq_rejected st i x y o hacc,
        handleAttack_eq_rejected st i x y _ hacc]
  all_goals rfl

theorem awaitLastStand_none_of_no_result :
    ∀ msgs : List Message, (∀ m ∈ msgs, ∀ s, m ≠ Message.LastStandResult s) →
      awaitLastStand msgs = none := by
  intro msgs
  induction msgs with
  | nil => intro _; rfl
  | cons m rest ih =>
    intro h
    cases m
    case LastStandResult s =>
      exact absurd rfl (h _ (List.mem_cons_self _ _) s)
    all_goals exact ih (fun m hm s => h m (List.mem_cons_of_mem _ hm) s)

/-! ## C7: last stand at most once per life -/

/-- C7: a `LastStandTrigger` is emitted only to the defender of an accepted
attack that leaves its grid fully sunk while its last-stand-used flag is
false, and at that moment the flag goes false→true; the flag never returns to
false under any message transition; a window that ends without any
`LastStandResult` is handled identically to a window answering
`LastStandResult{success:false}`; and a window containing no `LastStandResult`
(whatever other messages it carries, they are discarded) yields no reply. -/
theorem last_stand_once_per_life (st : SessionState) (i : Fin 2) (o : Oracle) :
    (∀ msg st' outs j, stepMessage st i msg o = some (st', outs) →
      (j, Message.LastStandTrigger) ∈ outs →
      j = otherIdx i ∧ (st.peer j).last_stand_used = false ∧
      (st'.peer j).last_stand_used = true ∧
      ∃ x y g, msg = Message.Attack x y ∧ st.current_turn = i ∧
        st.p1.ready = true ∧ st.p2.ready = true ∧ (st.peer j).grid = some g ∧
        all_ships_sunk (applyAttack g x y) = true) ∧
    (∀ msg st' outs j, stepMessage st i msg o = some (st', outs) →
      (st.peer j).last_stand_used = true → (st'.peer j).last_stand_used = true) ∧
    (awaitLastStand o.lastStandWindow = none →
      ∀ msg, stepMessage st i msg o =
        stepMessage st i msg
          { o with lastStandWindow := [Message.LastStandResult false] }) ∧
    (∀ msgs : List Message, (∀ m ∈ msgs, ∀ s, m ≠ Message.LastStandResult s) →
      awaitLastStand msgs = none) :=
  ⟨stepMessage_trigger_analysis st i o, stepMessage_flag_monotone st i o,
    fun hnone => stepMessage_timeout_eq_false st i o hnone,
    awaitLastStand_none_of_no_result⟩

/-- The session in which peer 1's last ship cell is about to be hit. -/
def stLast : SessionState :=
  { p1 := { grid := some gridEmpty, ready := true, last_stand_used := false },
    p2 := { grid := some gridLastCell, ready := true, last_stand_used := false },
    current_turn := 0, game_over := false, play_again_state := PlayAgainState.None }

/-- The transition of `stLast` on the sinking attack (empty window: timeout). -/
def resLast : SessionState × List (Fin 2 × Message) :=
  (stepMessage stLast 0 (Message.Attack 3 4) oracle0).getD (stLast, [])

theorem resLast_outs_eval :
    resLast.2 = [(0, Message.AttackResult 3 4 true true), (1, Message.Attack 3 4),
      (1, Message.LastStandTrigger), (0, Message.GameOver true),
      (1, Message.GameOver false), (0, Message.PlayAgainRequest),
      (1, Message.PlayAgainRequest)] := rfl

theorem last_stand_once_per_life_witness :
    stepMessage stLast 0 (Message.Attack 3 4) oracle0 = some (resLast.1, resLast.2) ∧
    ((1 : Fin 2), Message.LastStandTrigger) ∈ resLast.2 ∧
    ((1 : Fin 2) = otherIdx 0 ∧ (stLast.peer 1).last_stand_used = false ∧
      (resLast.1.peer 1).last_stand_used = true ∧
      ∃ x y g, Message.Attack 3 4 = Message.Attack x y ∧ stLast.current_turn = 0 ∧
        stLast.p1.ready = true ∧ stLast.p2.ready = true ∧
        (stLast.peer 1).grid = some g ∧
        all_ships_sunk (applyAttack g x y) = true) :=
  ⟨rfl, by rw [resLast_outs_eval]; simp,
    (last_stand_once_per_life stLast 0 oracle0).1 (Message.Attack 3 4) resLast.1 resLast.2 1
      rfl (by rw [resLast_outs_eval]; simp)⟩

/-! ## C8: last-stand restore -/

/-- The session state after a successful last-stand restore writes grid `g2`. -/
def stRestored (st : SessionState) (i : Fin 2) (g1 g2 : Grid) : SessionState :=
  setPeer (stAfterFlag st i g1) (otherIdx i)
    { (stAfterFlag st i g1).peer (otherIdx i) with grid := some g2 }

theorem gameOver_not_mem_continueOuts (i : Fin 2) (x y : Nat) (g : Grid) (j : Fin 2)
    (w : Bool) :
    (j, Message.GameOver w) ∉
      attackOuts i x y g ++ [(otherIdx i, Message.LastStandTrigger)] := by
  simp [attackOuts]

theorem stRestored_game_over (st : SessionState) (i : Fin 2) (g1 g2 : Grid) :
    (stRestored st i g1 g2).game_over = st.game_over := by
  simp [stRestored, stAfterFlag, stAfterAttack, setPeer_game_over]

theorem stRestored_current_turn (st : SessionState) (i : Fin 2) (g1 g2 : Grid) :
    (stRestored st i g1 g2).current_turn = st.current_turn := by
  simp [stRestored, stAfterFlag, stAfterAttack, setPeer_current_turn]

theorem stRestored_play_again (st : SessionState) (i : Fin 2) (g1 g2 : Grid) :
    (stRestored st i g1 g2).play_again_state = st.play_again_state := by
  simp [stRestored, stAfterFlag, stAfterAttack, setPeer_play_again]

/-- C8: when the loser answers `LastStandResult{success:true}` within the
window, `restore_random_ship` runs on the post-attack grid: the Empty cells
are enumerated (conjunct 1); an empty enumeration forces failure (conjunct 2);
a successful restore placed a length-2 ship at a sampled Empty position with
horizontal orientation tried before vertical, the session continues with the
restored grid, no `GameOver` is sent and turn/phase are untouched (conjunct
3); a failed restore means no candidate admitted either orientation — only
then does the session fall through to game-over (conjunct 4). -/
theorem last_stand_restore (st : SessionState) (i : Fin 2) (x y : Nat) (g : Grid)
    (o : Oracle)
    (hturn : st.current_turn = i) (hr1 : st.p1.ready = true) (hr2 : st.p2.ready = true)
    (hg : (st.peer (otherIdx i)).grid = some g)
    (hsunk : all_ships_sunk (applyAttack g x y) = true)
    (hflag : (st.peer (otherIdx i)).last_stand_used = false)
    (hreply : awaitLastStand o.lastStandWindow = some true) :
    (∀ p : Nat × Nat, p ∈ empty_positions (applyAttack g x y) ↔
      p.1 < GRID_SIZE ∧ p.2 < GRID_SIZE ∧
        applyAttack g x y p.2 p.1 = CellState.Empty) ∧
    (empty_positions (applyAttack g x y) = [] →
      restore_random_ship (applyAttack g x y) o.restoreIdxs = some none) ∧
    (∀ g2, restore_random_ship (applyAttack g x y) o.restoreIdxs = some (some g2) →
      (∃ p, p ∈ empty_positions (applyAttack g x y) ∧
        ((can_place_ship (applyAttack g x y) p.1 p.2 2 true = true ∧
          g2 = place_ship (applyAttack g x y) p.1 p.2 2 true) ∨
         (can_place_ship (applyAttack g x y) p.1 p.2 2 true = false ∧
          can_place_ship (applyAttack g x y) p.1 p.2 2 false = true ∧
          g2 = place_ship (applyAttack g x y) p.1 p.2 2 false))) ∧
      stepMessage st i (Message.Attack x y) o =
        some (stRestored st i (applyAttack g x y) g2,
              attackOuts i x y g ++ [(otherIdx i, Message.LastStandTrigger)]) ∧
      (∀ j w, (j, Message.GameOver w) ∉
        attackOuts i x y g ++ [(otherIdx i, Message.LastStandTrigger)]) ∧
      (stRestored st i (applyAttack g x y) g2).game_over = st.game_over ∧
      (stRestored st i (applyAttack g x y) g2).current_turn = st.current_turn ∧
      (stRestored st i (applyAttack g x y) g2).play_again_state =
        st.play_again_state ∧
      ((stRestored st i (applyAttack g x y) g2).peer (otherIdx i)).grid = some g2) ∧
    (restore_random_ship (applyAttack g x y) o.restoreIdxs = some none →
      (∀ p ∈ empty_positions (applyAttack g x y),
        can_place_ship (applyAttack g x y) p.1 p.2 2 true = false ∧
        can_place_ship (applyAttack g x y) p.1 p.2 2 false = false) ∧
      stepMessage st i (Message.Attack x y) o =
        some ({ stAfterFlag st i (applyAttack g x y) with
                  play_again_state := PlayAgainState.WaitingForResponses none none },
              attackOuts i x y g ++ [(otherIdx i, Message.LastStandTrigger)]
                ++ gameOverMsgs i)) := by
  refine ⟨fun p => mem_empty_positions _ p,
    fun he => restore_random_ship_empty _ he o.restoreIdxs, ?_, ?_⟩
  · intro g2 hres
    refine ⟨restore_random_ship_some_sound _ o.restoreIdxs g2 hres, ?_,
      fun j w => gameOver_not_mem_continueOuts i x y g j w,
      stRestored_game_over st i _ g2, stRestored_current_turn st i _ g2,
      stRestored_play_again st i _ g2, ?_⟩
    · show handleAttack st i x y o = _
      rw [handleAttack_eq_restored st i x y g g2 o hturn hr1 hr2 hg hsunk hflag
          hreply hres]
      rfl
    · rw [stRestored, peer_setPeer_same]
  · intro hres
    refine ⟨restore_random_ship_none_no_placement _ o.restoreIdxs hres, ?_⟩
    show handleAttack st i x y o = _
    exact handleAttack_eq_restoreFailed st i x y g o hturn hr1 hr2 hg hsunk hflag
      hreply hres

/-- An environment answering the last-stand window with success and one
random sample. -/
def oracleLS : Oracle :=
  { lastStandWindow := [Message.YourTurn, Message.LastStandResult true],
    restoreIdxs := [0], missile1 := 0, missile2 := 0 }

/-- The grid the successful restore of the C8 witness run produces. -/
def g2W : Grid :=
  ((restore_random_ship (applyAttack gridLastCell 3 4) oracleLS.restoreIdxs).getD
    none).getD gridEmpty

theorem last_stand_restore_witness :
    stLast.current_turn = 0 ∧
    all_ships_sunk (applyAttack gridLastCell 3 4) = true ∧
    (stLast.peer (otherIdx 0)).last_stand_used = false ∧
    awaitLastStand oracleLS.lastStandWindow = some true ∧
    restore_random_ship (applyAttack gridLastCell 3 4) oracleLS.restoreIdxs =
      some (some g2W) ∧
    ((∃ p, p ∈ empty_positions (applyAttack gridLastCell 3 4) ∧
        ((can_place_ship (applyAttack gridLastCell 3 4) p.1 p.2 2 true = true ∧
          g2W = place_ship (applyAttack gridLastCell 3 4) p.1 p.2 2 true) ∨
         (can_place_ship (applyAttack gridLastCell 3 4) p.1 p.2 2 true = false ∧
          can_place_ship (applyAttack gridLastCell 3 4) p.1 p.2 2 false = true ∧
          g2W = place_ship (applyAttack gridLastCell 3 4) p.1 p.2 2 false))) ∧
      stepMessage stLast 0 (Message.Attack 3 4) oracleLS =
        some (stRestored stLast 0 (applyAttack gridLastCell 3 4) g2W,
              attackOuts 0 3 4 gridLastCell ++ [(otherIdx 0, Message.LastStandTrigger)]) ∧
      (∀ j w, (j, Message.GameOver w) ∉
        attackOuts 0 3 4 gridLastCell ++ [(otherIdx 0, Message.LastStandTrigger)]) ∧
      (stRestored stLast 0 (applyAttack gridLastCell 3 4) g2W).game_over =
        stLast.game_over ∧
      (stRestored stLast 0 (applyAttack gridLastCell 3 4) g2W).current_turn =
        stLast.current_turn ∧
      (stRestored stLast 0 (applyAttack gridLastCell 3 4) g2W).play_again_state =
        stLast.play_again_state ∧
      ((stRestored stLast 0 (applyAttack gridLastCell 3 4) g2W).peer
        (otherIdx 0)).grid = some g2W) :=
  ⟨rfl, rfl, rfl, rfl, rfl,
    (last_stand_restore stLast 0 3 4 gridLastCell oracleLS rfl rfl rfl rfl rfl rfl
      rfl).2.2.1 g2W rfl⟩

/-! ## C9: play-again negotiation -/

/-- C9: recording the second play-again response resolves the negotiation to
`BothAgreed` exactly when both recorded responses are true and to
`OneDeclined` otherwise (conjuncts 1-2; a single response keeps waiting); a
resolved `BothAgreed` resets the session (grids cleared, ready flags false,
turn 0, last-stand flags false) and sends `NewGameStart` to both (conjunct
3); `OneDeclined` ends the session (conjunct 4); an elapsed 30-second window
while waiting resolves to `Timeout` (conjunct 5), which ends the session
(conjunct 6). -/
theorem play_again_resolution (st : SessionState) (i : Fin 2) (o : Oracle) :
    (∀ w r1 r2 b, st.play_again_state = PlayAgainState.WaitingForResponses r1 r2 →
      (if i = 0 then r2 else r1) = some b →
      stepMessage st i (Message.PlayAgainResponse w) o =
        some ({ st with play_again_state :=
          if w && b then PlayAgainState.BothAgreed
          else PlayAgainState.OneDeclined }, [])) ∧
    (∀ w r1 r2, st.play_again_state = PlayAgainState.WaitingForResponses r1 r2 →
      (if i = 0 then r2 else r1) = none →
      stepMessage st i (Message.PlayAgainResponse w) o =
        some ({ st with play_again_state :=
          (PlayAgainState.WaitingForResponses
            (if i = 0 then some w else r1) (if i = 0 then r2 else some w)) }, [])) ∧
    (st.play_again_state = PlayAgainState.BothAgreed →
      ∀ t, stepPlayAgain st t =
        ({ p1 := { grid := none, ready := false, last_stand_used := false },
           p2 := { grid := none, ready := false, last_stand_used := false },
           current_turn := 0, game_over := st.game_over,
           play_again_state := PlayAgainState.None },
         [(0, Message.NewGameStart), (1, Message.NewGameStart)])) ∧
    (st.play_again_state = PlayAgainState.OneDeclined →
      ∀ t, stepPlayAgain st t = ({ st with game_over := true }, [])) ∧
    (∀ r1 r2, st.play_again_state = PlayAgainState.WaitingForResponses r1 r2 →
      stepPlayAgain st true =
        ({ st with play_again_state := PlayAgainState.Timeout }, [])) ∧
    (st.play_again_state = PlayAgainState.Timeout →
      ∀ t, stepPlayAgain st t = ({ st with game_over := true }, [])) := by
  refine ⟨?_, ?_, ?_, ?_, ?_, ?_⟩
  · intro w r1 r2 b hpas hother
    fin_cases i
    · simp only [Fin.isValue, if_true, reduceIte] at hother
      subst hother
      simp [stepMessage, hpas]
    · simp only [Fin.isValue, reduceIte] at hother
      subst hother
      simp [stepMessage, hpas, Bool.and_comm]
  · intro w r1 r2 hpas hother
    fin_cases i
    · simp only [Fin.isValue, if_true, reduceIte] at hother
      subst hother
      simp [stepMessage, hpas]
    · simp only [Fin.isValue, reduceIte] at hother
      subst hother
      simp [stepMessage, hpas]
  · intro hpas t
    simp [stepPlayAgain, hpas]
  · intro hpas t
    simp [stepPlayAgain, hpas]
  · intro r1 r2 hpas
    simp [stepPlayAgain, hpas]
  · intro hpas t
    simp [stepPlayAgain, hpas]

/-- A finished game waiting for play-again responses; peer 1 already agreed. -/
def c9_state : SessionState :=
  { p1 := { grid := none, ready := false, last_stand_used := true },
    p2 := { grid := none, ready := false, last_stand_used := false },
    current_turn := 1, game_over := false,
    play_again_state := PlayAgainState.WaitingForResponses none (some true) }

theorem play_again_resolution_witness :
    c9_state.play_again_state = PlayAgainState.WaitingForResponses none (some true) ∧
    (if (0 : Fin 2) = 0 then some true else (none : Option Bool)) = some true ∧
    stepMessage c9_state 0 (Message.PlayAgainResponse true) oracle0 =
      some ({ c9_state with play_again_state :=
        if true && true then PlayAgainState.BothAgreed
        else PlayAgainState.OneDeclined }, []) :=
  ⟨rfl, rfl,
    (play_again_resolution c9_state 0 oracle0).1 true none (some true) true rfl rfl⟩

/-! ## C6: hand size never exceeds 5 -/

/-- C6: the hand starts empty with `max_hand_size = 5`; `draw_card` and
`use_card` (client engine) and `ai_draw_card` (AI driver) all preserve
"hand size ≤ 5"; and a draw attempted with a full hand returns no card and
leaves the hand unchanged (both for the client engine and the AI driver). -/
theorem hand_size_bounded :
    initialCardHand.current_hand.length ≤ 5 ∧ initialCardHand.max_hand_size = 5 ∧
    (∀ (s : CardHand) (pick : Nat), s.max_hand_size = 5 →
      s.current_hand.length ≤ 5 → ((draw_card s pick).2).current_hand.length ≤ 5) ∧
    (∀ (s : CardHand) (pick : Nat), s.current_hand.length ≥ s.max_hand_size →
      draw_card s pick = (none, s)) ∧
    (∀ (s : CardHand) (idx : Nat), s.current_hand.length ≤ 5 →
      ((use_card s idx).2).current_hand.length ≤ 5) ∧
    (∀ (hand : List PowerUp) (pick : Nat), hand.length ≤ 5 →
      (ai_draw_card hand pick).length ≤ 5) ∧
    (∀ (hand : List PowerUp) (pick : Nat), hand.length = 5 →
      ai_draw_card hand pick = hand) := by
  refine ⟨by simp [initialCardHand], rfl, ?_, ?_, ?_, ?_, ?_⟩
  · intro s pick hmax hlen
    rw [draw_card]
    by_cases hfull : s.current_hand.length ≥ s.max_hand_size
    · rw [if_pos hfull]
      exact hlen
    · rw [if_neg hfull]
      simp only [List.length_append, List.length_cons, List.length_nil]
      omega
  · intro s pick hfull
    rw [draw_card, if_pos hfull]
  · intro s idx hlen
    rw [use_card]
    by_cases hidx : idx < s.current_hand.length
    · rw [dif_pos hidx]
      simp only
      have := List.length_eraseIdx_of_lt hidx
      omega
    · rw [dif_neg hidx]
      exact hlen
  · intro hand pick hlen
    rw [ai_draw_card]
    by_cases h5 : hand.length < 5
    · rw [if_pos h5]
      simp only [List.length_append, List.length_cons, List.length_nil]
      omega
    · rw [if_neg h5]
      exact hlen
  · intro hand pick hlen
    rw [ai_draw_card, if_neg (by omega)]

/-- A hand already holding five cards. -/
def hand5 : CardHand :=
  { current_hand := [PowerUp.Shield, PowerUp.Radar, PowerUp.Repair,
      PowerUp.MissileStrike, PowerUp.Shield], max_hand_size := 5 }

theorem hand_size_bounded_witness :
    hand5.current_hand.length ≥ hand5.max_hand_size ∧
    draw_card hand5 2 = (none, hand5) :=
  ⟨by decide, hand_size_bounded.2.2.2.1 hand5 2 (by decide)⟩
